import Mathlib

/-!
Shallow embedding of the affine-mcp-server document/block mutation engine.

Sources embedded:
- the doc-tools module (block schema, normalization, validation, placement
  resolution, block factory, append/create/read/delete handlers);
- the websocket transport module (loadDoc not-found handling, ack shapes).

Modelling conventions:
- Yjs maps holding blocks become association lists keyed by block id, with
  iteration order equal to list order (Y.Map insertion order).
- Y.Text values become plain strings (vText).
- JavaScript numbers at the tool boundary are zod-validated integers, so they
  are embedded as Int; Number.isInteger checks on them are then trivially true
  and are kept only where they can still fail in the Int model.
- The random identifier generator is injected as a supply ids : Nat -> String
  together with a consumption counter, matching the call order of generateId().
- Thrown exceptions become an explicit error enumeration VErr, one constructor
  per throw site; the WHATWG URL parser behind `new URL` is abstracted as a
  boolean oracle urlOk passed to validation.
-/

namespace AffineMcp

/-- Equality on Except values is decidable componentwise. -/
instance {ε α : Type} [DecidableEq ε] [DecidableEq α] : DecidableEq (Except ε α) := fun a b =>
  match a, b with
  | .ok x, .ok y =>
    if h : x = y then .isTrue (by rw [h]) else .isFalse (by intro hc; cases hc; exact h rfl)
  | .error x, .error y =>
    if h : x = y then .isTrue (by rw [h]) else .isFalse (by intro hc; cases hc; exact h rfl)
  | .ok _, .error _ => .isFalse (by intro hc; cases hc)
  | .error _, .ok _ => .isFalse (by intro hc; cases hc)

/-- JS String.prototype.trim on the character list (whitespace in the
ASCII range, which covers every string the engine trims). -/
def jsTrim (s : String) : String :=
  String.mk (((s.data.dropWhile Char.isWhitespace).reverse.dropWhile
    Char.isWhitespace).reverse)

/-- JS String.prototype.toLowerCase on the character list (ASCII case
mapping, which covers the canonical type names being matched). -/
def jsToLower (s : String) : String :=
  String.mk (s.data.map Char.toLower)

/-- Canonical append_block kinds (APPEND_BLOCK_CANONICAL_TYPE_VALUES). -/
inductive BlockType where
  | paragraph | heading | quote | list | code | divider | callout | latex
  | table | bookmark | image | attachment
  | embed_youtube | embed_github | embed_figma | embed_loom | embed_html
  | embed_linked_doc | embed_synced_doc | embed_iframe
  | database | data_view | surface_ref | frame | edgeless_text | note
deriving Repr, DecidableEq

/-- Legacy alias names (APPEND_BLOCK_LEGACY_ALIAS_MAP keys). -/
inductive LegacyType where
  | heading1 | heading2 | heading3 | bulleted_list | numbered_list | todo
deriving Repr, DecidableEq

/-- List styles (APPEND_BLOCK_LIST_STYLE_VALUES). -/
inductive ListStyle where
  | bulleted | numbered | todo
deriving Repr, DecidableEq

/-- Bookmark styles (APPEND_BLOCK_BOOKMARK_STYLE_VALUES). -/
inductive BookmarkStyle where
  | vertical | horizontal | list | cube | citation
deriving Repr, DecidableEq

/-- Values stored under a property key of a block (plain scalars, Y.Text,
nested objects and arrays, and the JS null and undefined values, which the
code does store explicitly via block.set). -/
inductive Val where
  | vStr (s : String)
  | vNum (n : Int)
  | vBool (b : Bool)
  | vText (s : String)
  | vNull
  | vUndef
  | vArr (xs : List Val)
  | vMap (kvs : List (String × Val))
deriving Repr

/-- One entry of a sys:children array: either a bare id string or the legacy
one-element-array encoding (an array of id strings). -/
inductive ChildEntry where
  | str (s : String)
  | arr (xs : List String)
deriving Repr, DecidableEq

/-- A block: the Y.Map stored in the blocks map.  sys:* fields are structure
fields; parent is none when sys:parent is absent or not a string; children is
none when sys:children is absent or not a Y.Array; prop:* fields live in
props in set order. -/
structure Block where
  sysId : String
  flavour : String
  version : Nat
  parent : Option String := none
  children : Option (List ChildEntry) := none
  props : List (String × Val) := []
deriving Repr

/-- The doc-level blocks map (Y.Map of id to block), iteration order =
list order. -/
abbrev Blocks := List (String × Block)

/-- Y.Map.get on the blocks map. -/
def mapGet (m : Blocks) (k : String) : Option Block :=
  match m with
  | [] => none
  | (k', v) :: rest => if k' = k then some v else mapGet rest k

/-- Y.Map.set on the blocks map: replace in place or append. -/
def mapSet (m : Blocks) (k : String) (v : Block) : Blocks :=
  match m with
  | [] => [(k, v)]
  | (k', v') :: rest => if k' = k then (k, v) :: rest else (k', v') :: mapSet rest k v

/-- JS string truthiness of an optional string (undefined and the empty
string are falsy). -/
def truthy (o : Option String) : Option String :=
  match o with
  | some s => if s = "" then none else some s
  | none => none

/-- blockVersion: page=2, surface=5, else 1. -/
def blockVersion (flavour : String) : Nat :=
  if flavour = "affine:page" then 2
  else if flavour = "affine:surface" then 5
  else 1

/-- findBlockIdByFlavour: id field (sys:id) of the first block in iteration
order whose sys:flavour matches. -/
def findBlockIdByFlavour (blocks : Blocks) (flavour : String) : Option String :=
  match blocks with
  | [] => none
  | (_, b) :: rest =>
    if b.flavour = flavour then some b.sysId else findBlockIdByFlavour rest flavour

/-- findBlockById: direct key lookup. -/
def findBlockById (blocks : Blocks) (blockId : String) : Option Block :=
  mapGet blocks blockId

/-- childIdsFrom: flatten a sys:children value to a list of id strings,
accepting bare ids and the legacy array-wrapped encoding. -/
def childIdsFrom (v : Option (List ChildEntry)) : List String :=
  match v with
  | none => []
  | some es => es.flatMap fun e =>
      match e with
      | .str s => [s]
      | .arr xs => xs

/-- asText: read a property value as a plain string (Y.Text or string,
else empty). -/
def asText (v : Option Val) : String :=
  match v with
  | some (.vText s) => s
  | some (.vStr s) => s
  | _ => ""

/-- indexOfChild: index of the first children entry equal to the id or (in
the legacy encoding) containing the id; -1 when absent. -/
def indexOfChild (children : List ChildEntry) (blockId : String) : Int :=
  go children 0
where
  go : List ChildEntry → Nat → Int
  | [], _ => -1
  | e :: rest, i =>
    match e with
    | .str s => if s = blockId then (i : Int) else go rest (i + 1)
    | .arr xs => if blockId ∈ xs then (i : Int) else go rest (i + 1)

/-- Property read on a block. -/
def Block.getProp (b : Block) (k : String) : Option Val :=
  (b.props.find? fun kv => kv.1 = k).map (·.2)

set_option maxHeartbeats 2000000 in
/-- Every failure the embedded code can raise, one constructor per throw or
reject site (the code throws Error values with message strings; the
constructor records the data interpolated into the message). -/
inductive VErr where
  | unsupportedType (t : String)
  | afterBeforeExclusive
  | indexNegative
  | indexWithRef
  | headingLevelRange
  | levelOnlyForHeading
  | invalidListStyle
  | checkedOnlyTodo
  | styleOnlyForList
  | checkedOnlyForList
  | languageOnlyForCode
  | captionNotValid
  | codeLanguageTooLong
  | dividerNoText
  | urlRequired (t : BlockType)
  | urlInvalid (t : BlockType)
  | invalidBookmarkStyle
  | bookmarkStyleOnlyForBookmark
  | urlNotValidForType
  | sourceIdRequired (t : BlockType)
  | attachmentNameMime
  | sourceIdOnlyForImageAttachment
  | nameMimeEmbedSizeOnly
  | latexRequired
  | latexOnlyForLatex
  | pageIdRequired (t : BlockType)
  | pageIdOnlyForEmbedDocs
  | embedHtmlRequires
  | htmlDesignOnly
  | iframeUrlEmpty
  | iframeUrlOnly
  | referenceRequired
  | refFlavourRequired
  | referenceOnly
  | widthRange (t : BlockType)
  | heightRange (t : BlockType)
  | widthHeightOnly
  | backgroundOnly
  | rowsRange
  | columnsRange
  | rowsColumnsOnly
  | refNotFound (after : Bool) (id : String)
  | refNoParent (id : String)
  | noPageForNote
  | noPageForContent
  | noPageForSurface
  | parentNotFound (id : String)
  | cannotAppendUnderPage (t : BlockType)
  | cannotAppendUnderSurface (t : BlockType)
  | noteMustBeUnderPage
  | mustBeUnderSurface (t : BlockType)
  | refNotChild (id : String)
  | indexOutOfRange (req : Int) (max : Nat)
  | workspaceRequired
  | internalFault
  | connectTimeout
  | connectFailed
  | joinTimeout
  | joinFailed (msg : String)
  | loadTimeout
  | loadFailed (msg : String)
  | pushTimeout
  | pushFailed (msg : String)
deriving Repr

/-- Injective encoding of a VErr: constructor code plus the payload slots
(unused slots take defaults).  Deriving DecidableEq directly builds a
pairwise matcher over the 63 constructors; this encoding keeps every
generated term small. -/
def VErr.enc : VErr → Nat × String × BlockType × Int × Nat × Bool
  | .unsupportedType t => (0, t, .paragraph, 0, 0, false)
  | .afterBeforeExclusive => (1, "", .paragraph, 0, 0, false)
  | .indexNegative => (2, "", .paragraph, 0, 0, false)
  | .indexWithRef => (3, "", .paragraph, 0, 0, false)
  | .headingLevelRange => (4, "", .paragraph, 0, 0, false)
  | .levelOnlyForHeading => (5, "", .paragraph, 0, 0, false)
  | .invalidListStyle => (6, "", .paragraph, 0, 0, false)
  | .checkedOnlyTodo => (7, "", .paragraph, 0, 0, false)
  | .styleOnlyForList => (8, "", .paragraph, 0, 0, false)
  | .checkedOnlyForList => (9, "", .paragraph, 0, 0, false)
  | .languageOnlyForCode => (10, "", .paragraph, 0, 0, false)
  | .captionNotValid => (11, "", .paragraph, 0, 0, false)
  | .codeLanguageTooLong => (12, "", .paragraph, 0, 0, false)
  | .dividerNoText => (13, "", .paragraph, 0, 0, false)
  | .urlRequired t => (14, "", t, 0, 0, false)
  | .urlInvalid t => (15, "", t, 0, 0, false)
  | .invalidBookmarkStyle => (16, "", .paragraph, 0, 0, false)
  | .bookmarkStyleOnlyForBookmark => (17, "", .paragraph, 0, 0, false)
  | .urlNotValidForType => (18, "", .paragraph, 0, 0, false)
  | .sourceIdRequired t => (19, "", t, 0, 0, false)
  | .attachmentNameMime => (20, "", .paragraph, 0, 0, false)
  | .sourceIdOnlyForImageAttachment => (21, "", .paragraph, 0, 0, false)
  | .nameMimeEmbedSizeOnly => (22, "", .paragraph, 0, 0, false)
  | .latexRequired => (23, "", .paragraph, 0, 0, false)
  | .latexOnlyForLatex => (24, "", .paragraph, 0, 0, false)
  | .pageIdRequired t => (25, "", t, 0, 0, false)
  | .pageIdOnlyForEmbedDocs => (26, "", .paragraph, 0, 0, false)
  | .embedHtmlRequires => (27, "", .paragraph, 0, 0, false)
  | .htmlDesignOnly => (28, "", .paragraph, 0, 0, false)
  | .iframeUrlEmpty => (29, "", .paragraph, 0, 0, false)
  | .iframeUrlOnly => (30, "", .paragraph, 0, 0, false)
  | .referenceRequired => (31, "", .paragraph, 0, 0, false)
  | .refFlavourRequired => (32, "", .paragraph, 0, 0, false)
  | .referenceOnly => (33, "", .paragraph, 0, 0, false)
  | .widthRange t => (34, "", t, 0, 0, false)
  | .heightRange t => (35, "", t, 0, 0, false)
  | .widthHeightOnly => (36, "", .paragraph, 0, 0, false)
  | .backgroundOnly => (37, "", .paragraph, 0, 0, false)
  | .rowsRange => (38, "", .paragraph, 0, 0, false)
  | .columnsRange => (39, "", .paragraph, 0, 0, false)
  | .rowsColumnsOnly => (40, "", .paragraph, 0, 0, false)
  | .refNotFound a i => (41, i, .paragraph, 0, 0, a)
  | .refNoParent i => (42, i, .paragraph, 0, 0, false)
  | .noPageForNote => (43, "", .paragraph, 0, 0, false)
  | .noPageForContent => (44, "", .paragraph, 0, 0, false)
  | .noPageForSurface => (45, "", .paragraph, 0, 0, false)
  | .parentNotFound i => (46, i, .paragraph, 0, 0, false)
  | .cannotAppendUnderPage t => (47, "", t, 0, 0, false)
  | .cannotAppendUnderSurface t => (48, "", t, 0, 0, false)
  | .noteMustBeUnderPage => (49, "", .paragraph, 0, 0, false)
  | .mustBeUnderSurface t => (50, "", t, 0, 0, false)
  | .refNotChild i => (51, i, .paragraph, 0, 0, false)
  | .indexOutOfRange r m => (52, "", .paragraph, r, m, false)
  | .workspaceRequired => (53, "", .paragraph, 0, 0, false)
  | .internalFault => (54, "", .paragraph, 0, 0, false)
  | .connectTimeout => (55, "", .paragraph, 0, 0, false)
  | .connectFailed => (56, "", .paragraph, 0, 0, false)
  | .joinTimeout => (57, "", .paragraph, 0, 0, false)
  | .joinFailed m => (58, m, .paragraph, 0, 0, false)
  | .loadTimeout => (59, "", .paragraph, 0, 0, false)
  | .loadFailed m => (60, m, .paragraph, 0, 0, false)
  | .pushTimeout => (61, "", .paragraph, 0, 0, false)
  | .pushFailed m => (62, m, .paragraph, 0, 0, false)

/-- Left inverse of the encoding, by constructor code. -/
def VErr.dec (c : Nat) (s : String) (t : BlockType) (i : Int) (m : Nat)
    (b : Bool) : VErr :=
  match c with
  | 0 => .unsupportedType s
  | 1 => .afterBeforeExclusive
  | 2 => .indexNegative
  | 3 => .indexWithRef
  | 4 => .headingLevelRange
  | 5 => .levelOnlyForHeading
  | 6 => .invalidListStyle
  | 7 => .checkedOnlyTodo
  | 8 => .styleOnlyForList
  | 9 => .checkedOnlyForList
  | 10 => .languageOnlyForCode
  | 11 => .captionNotValid
  | 12 => .codeLanguageTooLong
  | 13 => .dividerNoText
  | 14 => .urlRequired t
  | 15 => .urlInvalid t
  | 16 => .invalidBookmarkStyle
  | 17 => .bookmarkStyleOnlyForBookmark
  | 18 => .urlNotValidForType
  | 19 => .sourceIdRequired t
  | 20 => .attachmentNameMime
  | 21 => .sourceIdOnlyForImageAttachment
  | 22 => .nameMimeEmbedSizeOnly
  | 23 => .latexRequired
  | 24 => .latexOnlyForLatex
  | 25 => .pageIdRequired t
  | 26 => .pageIdOnlyForEmbedDocs
  | 27 => .embedHtmlRequires
  | 28 => .htmlDesignOnly
  | 29 => .iframeUrlEmpty
  | 30 => .iframeUrlOnly
  | 31 => .referenceRequired
  | 32 => .refFlavourRequired
  | 33 => .referenceOnly
  | 34 => .widthRange t
  | 35 => .heightRange t
  | 36 => .widthHeightOnly
  | 37 => .backgroundOnly
  | 38 => .rowsRange
  | 39 => .columnsRange
  | 40 => .rowsColumnsOnly
  | 41 => .refNotFound b s
  | 42 => .refNoParent s
  | 43 => .noPageForNote
  | 44 => .noPageForContent
  | 45 => .noPageForSurface
  | 46 => .parentNotFound s
  | 47 => .cannotAppendUnderPage t
  | 48 => .cannotAppendUnderSurface t
  | 49 => .noteMustBeUnderPage
  | 50 => .mustBeUnderSurface t
  | 51 => .refNotChild s
  | 52 => .indexOutOfRange i m
  | 53 => .workspaceRequired
  | 54 => .internalFault
  | 55 => .connectTimeout
  | 56 => .connectFailed
  | 57 => .joinTimeout
  | 58 => .joinFailed s
  | 59 => .loadTimeout
  | 60 => .loadFailed s
  | 61 => .pushTimeout
  | 62 => .pushFailed s
  | _ => .internalFault

/-- Decoding an encoded error restores it. -/
theorem VErr.dec_enc (a : VErr) :
    VErr.dec a.enc.1 a.enc.2.1 a.enc.2.2.1 a.enc.2.2.2.1 a.enc.2.2.2.2.1
      a.enc.2.2.2.2.2 = a := by
  cases a <;> rfl

instance : DecidableEq VErr := fun a b =>
  if h : a.enc = b.enc then
    isTrue (by rw [← VErr.dec_enc a, ← VErr.dec_enc b, h])
  else
    isFalse fun hc => h (by rw [hc])

/-- The four strict-mode containment errors of resolveInsertContext. -/
def VErr.isContainment : VErr → Bool
  | .cannotAppendUnderPage _ => true
  | .cannotAppendUnderSurface _ => true
  | .noteMustBeUnderPage => true
  | .mustBeUnderSurface _ => true
  | _ => false

/-- Canonical type names, matching APPEND_BLOCK_CANONICAL_TYPE_VALUES. -/
def canonicalTypeOfString (s : String) : Option BlockType :=
  if s = "paragraph" then some .paragraph
  else if s = "heading" then some .heading
  else if s = "quote" then some .quote
  else if s = "list" then some .list
  else if s = "code" then some .code
  else if s = "divider" then some .divider
  else if s = "callout" then some .callout
  else if s = "latex" then some .latex
  else if s = "table" then some .table
  else if s = "bookmark" then some .bookmark
  else if s = "image" then some .image
  else if s = "attachment" then some .attachment
  else if s = "embed_youtube" then some .embed_youtube
  else if s = "embed_github" then some .embed_github
  else if s = "embed_figma" then some .embed_figma
  else if s = "embed_loom" then some .embed_loom
  else if s = "embed_html" then some .embed_html
  else if s = "embed_linked_doc" then some .embed_linked_doc
  else if s = "embed_synced_doc" then some .embed_synced_doc
  else if s = "embed_iframe" then some .embed_iframe
  else if s = "database" then some .database
  else if s = "data_view" then some .data_view
  else if s = "surface_ref" then some .surface_ref
  else if s = "frame" then some .frame
  else if s = "edgeless_text" then some .edgeless_text
  else if s = "note" then some .note
  else none

/-- Legacy alias names, matching APPEND_BLOCK_LEGACY_ALIAS_MAP keys. -/
def legacyTypeOfString (s : String) : Option LegacyType :=
  if s = "heading1" then some .heading1
  else if s = "heading2" then some .heading2
  else if s = "heading3" then some .heading3
  else if s = "bulleted_list" then some .bulleted_list
  else if s = "numbered_list" then some .numbered_list
  else if s = "todo" then some .todo
  else none

/-- APPEND_BLOCK_LEGACY_ALIAS_MAP values. -/
def canonicalOfLegacy : LegacyType → BlockType
  | .heading1 => .heading
  | .heading2 => .heading
  | .heading3 => .heading
  | .bulleted_list => .list
  | .numbered_list => .list
  | .todo => .list

/-- listStyleFromAlias in normalizeBlockTypeInput. -/
def listStyleFromAlias : LegacyType → Option ListStyle
  | .bulleted_list => some .bulleted
  | .numbered_list => some .numbered
  | .todo => some .todo
  | _ => none

/-- headingLevelFromAlias in normalizeBlockTypeInput. -/
def headingLevelFromAlias : LegacyType → Option Int
  | .heading1 => some 1
  | .heading2 => some 2
  | .heading3 => some 3
  | _ => none

/-- Result of normalizeBlockTypeInput. -/
structure TypeInfo where
  type : BlockType
  legacyType : Option LegacyType := none
  headingLevelFromAlias : Option Int := none
  listStyleFromAlias : Option ListStyle := none
deriving Repr, DecidableEq

/-- normalizeBlockTypeInput: resolve a raw type string (trimmed, lowercased)
to a canonical kind, possibly through a legacy alias. -/
def normalizeBlockTypeInput (typeInput : String) : Except VErr TypeInfo :=
  let key := jsToLower (jsTrim typeInput)
  match canonicalTypeOfString key with
  | some t => .ok { type := t }
  | none =>
    match legacyTypeOfString key with
    | some l =>
      .ok { type := canonicalOfLegacy l, legacyType := some l,
            headingLevelFromAlias := headingLevelFromAlias l,
            listStyleFromAlias := listStyleFromAlias l }
    | none => .error (.unsupportedType typeInput)

/-- Raw placement input of append_block. -/
structure AppendPlacement where
  parentId : Option String := none
  afterBlockId : Option String := none
  beforeBlockId : Option String := none
  index : Option Int := none
deriving Repr, DecidableEq

/-- JS optional-chain trim plus truthiness: s?.trim() kept only when
non-empty. -/
def trimTruthy (o : Option String) : Option String :=
  match o with
  | some s => if jsTrim s = "" then none else some (jsTrim s)
  | none => none

/-- normalizePlacement: trim ids, enforce mutual exclusivity of
after/before and of index with either, require index to be a non-negative
integer, and collapse an effectively empty placement to none. -/
def normalizePlacement (placement : Option AppendPlacement) :
    Except VErr (Option AppendPlacement) :=
  match placement with
  | none => .ok none
  | some p =>
    let normalized : AppendPlacement :=
      { parentId := trimTruthy p.parentId,
        afterBlockId := trimTruthy p.afterBlockId,
        beforeBlockId := trimTruthy p.beforeBlockId,
        index := p.index }
    let hasAfter := normalized.afterBlockId.isSome
    let hasBefore := normalized.beforeBlockId.isSome
    if hasAfter ∧ hasBefore then .error .afterBeforeExclusive
    else
      match normalized.index with
      | some i =>
        if i < 0 then .error .indexNegative
        else if hasAfter ∨ hasBefore then .error .indexWithRef
        else .ok (some normalized)
      | none =>
        if normalized.parentId = none ∧ normalized.afterBlockId = none ∧
           normalized.beforeBlockId = none then .ok none
        else .ok (some normalized)

/-- Raw append_block input (AppendBlockInput), after the zod layer: absent
optional fields are none; numbers are integers by the zod schema. -/
structure AppendBlockInput where
  workspaceId : Option String := none
  docId : String := ""
  type : String := ""
  text : Option String := none
  url : Option String := none
  pageId : Option String := none
  iframeUrl : Option String := none
  html : Option String := none
  design : Option String := none
  reference : Option String := none
  refFlavour : Option String := none
  width : Option Int := none
  height : Option Int := none
  background : Option String := none
  sourceId : Option String := none
  name : Option String := none
  mimeType : Option String := none
  size : Option Int := none
  embed : Option Bool := none
  rows : Option Int := none
  columns : Option Int := none
  latex : Option String := none
  checked : Option Bool := none
  language : Option String := none
  caption : Option String := none
  level : Option Int := none
  style : Option ListStyle := none
  bookmarkStyle : Option BookmarkStyle := none
  strict : Option Bool := none
  placement : Option AppendPlacement := none
deriving Repr, DecidableEq

/-- NormalizedAppendBlockInput. -/
structure NormalizedInput where
  workspaceId : Option String := none
  docId : String := ""
  type : BlockType
  strict : Bool := true
  placement : Option AppendPlacement := none
  text : String := ""
  url : String := ""
  pageId : String := ""
  iframeUrl : String := ""
  html : String := ""
  design : String := ""
  reference : String := ""
  refFlavour : String := ""
  width : Int := 100
  height : Int := 100
  background : String := "transparent"
  sourceId : String := ""
  name : String := "attachment"
  mimeType : String := "application/octet-stream"
  size : Int := 0
  embed : Bool := false
  rows : Int := 3
  columns : Int := 3
  latex : String := ""
  headingLevel : Int := 1
  listStyle : ListStyle := .bulleted
  bookmarkStyle : BookmarkStyle := .horizontal
  checked : Bool := false
  language : String := "txt"
  caption : Option String := none
  legacyType : Option LegacyType := none
deriving Repr, DecidableEq

/-- The embed_* canonical kinds (type.startsWith of the embed marker on a
canonical name). -/
def BlockType.isEmbedKind : BlockType → Bool
  | .embed_youtube | .embed_github | .embed_figma | .embed_loom
  | .embed_html | .embed_linked_doc | .embed_synced_doc | .embed_iframe => true
  | _ => false

/-- The kinds that require (and allow) a url. -/
def urlAllowedType (t : BlockType) : Bool :=
  t = .bookmark ∨ t = .embed_youtube ∨ t = .embed_github ∨ t = .embed_figma ∨
  t = .embed_loom ∨ t = .embed_iframe

/-- One validation check: fail with the given error when the condition
holds (a throw site), else continue. -/
def vcheck (cond : Prop) [Decidable cond] (e : VErr) : Except VErr Unit :=
  if cond then .error e else .ok ()

/-- validateNormalizedAppendBlockInput, transcribed check for check in
source order (first failing check is the thrown error); urlOk abstracts the
WHATWG URL parser behind the try/catch around new URL.  The dynamic
membership checks on the typed listStyle and bookmarkStyle enums are vacuous
in this embedding and are omitted. -/
def validateNormalizedAppendBlockInput (urlOk : String → Bool)
    (n : NormalizedInput) (raw : AppendBlockInput) : Except VErr Unit :=
  vcheck (n.type = .heading ∧ ¬(1 ≤ n.headingLevel ∧ n.headingLevel ≤ 6))
    .headingLevelRange *>
  vcheck (n.type ≠ .heading ∧ raw.level ≠ none ∧ n.strict) .levelOnlyForHeading *>
  vcheck (n.type = .list ∧ n.listStyle ≠ .todo ∧ raw.checked ≠ none ∧ n.strict)
    .checkedOnlyTodo *>
  vcheck (n.type ≠ .list ∧ raw.style ≠ none ∧ n.strict) .styleOnlyForList *>
  vcheck (n.type ≠ .list ∧ raw.checked ≠ none ∧ n.strict) .checkedOnlyForList *>
  vcheck (n.type ≠ .code ∧ raw.language ≠ none ∧ n.strict) .languageOnlyForCode *>
  vcheck (n.type ≠ .code ∧ raw.caption ≠ none ∧
      ¬(n.type = .bookmark ∨ n.type = .image ∨ n.type = .attachment ∨
        n.type = .surface_ref ∨ n.type.isEmbedKind) ∧ n.strict) .captionNotValid *>
  vcheck (n.type = .code ∧ n.language.length > 64) .codeLanguageTooLong *>
  vcheck (n.type = .divider ∧ (raw.text.getD "").length > 0 ∧ n.strict) .dividerNoText *>
  vcheck (urlAllowedType n.type ∧ n.url = "") (.urlRequired n.type) *>
  vcheck (urlAllowedType n.type ∧ ¬urlOk n.url) (.urlInvalid n.type) *>
  vcheck (n.type ≠ .bookmark ∧ raw.bookmarkStyle ≠ none ∧ n.strict)
    .bookmarkStyleOnlyForBookmark *>
  vcheck (n.type ≠ .bookmark ∧ raw.url ≠ none ∧ ¬urlAllowedType n.type ∧ n.strict)
    .urlNotValidForType *>
  vcheck ((n.type = .image ∨ n.type = .attachment) ∧ n.sourceId = "")
    (.sourceIdRequired n.type) *>
  vcheck (n.type = .attachment ∧ (n.name = "" ∨ n.mimeType = "")) .attachmentNameMime *>
  vcheck (¬(n.type = .image ∨ n.type = .attachment) ∧ raw.sourceId ≠ none ∧ n.strict)
    .sourceIdOnlyForImageAttachment *>
  vcheck (¬(n.type = .image ∨ n.type = .attachment) ∧ raw.sourceId = none ∧
      (raw.name ≠ none ∨ raw.mimeType ≠ none ∨ raw.embed ≠ none ∨ raw.size ≠ none) ∧
      n.strict) .nameMimeEmbedSizeOnly *>
  vcheck (n.type = .latex ∧ n.latex = "" ∧ n.strict) .latexRequired *>
  vcheck (n.type ≠ .latex ∧ raw.latex ≠ none ∧ n.strict) .latexOnlyForLatex *>
  vcheck ((n.type = .embed_linked_doc ∨ n.type = .embed_synced_doc) ∧ n.pageId = "")
    (.pageIdRequired n.type) *>
  vcheck (¬(n.type = .embed_linked_doc ∨ n.type = .embed_synced_doc) ∧
      raw.pageId ≠ none ∧ n.strict) .pageIdOnlyForEmbedDocs *>
  vcheck (n.type = .embed_html ∧ n.html = "" ∧ n.design = "" ∧ n.strict)
    .embedHtmlRequires *>
  vcheck (n.type ≠ .embed_html ∧ (raw.html ≠ none ∨ raw.design ≠ none) ∧ n.strict)
    .htmlDesignOnly *>
  vcheck (n.type = .embed_iframe ∧ raw.iframeUrl ≠ none ∧ n.iframeUrl = "" ∧ n.strict)
    .iframeUrlEmpty *>
  vcheck (n.type ≠ .embed_iframe ∧ raw.iframeUrl ≠ none ∧ n.strict) .iframeUrlOnly *>
  vcheck (n.type = .surface_ref ∧ n.reference = "") .referenceRequired *>
  vcheck (n.type = .surface_ref ∧ n.refFlavour = "") .refFlavourRequired *>
  vcheck (n.type ≠ .surface_ref ∧ (raw.reference ≠ none ∨ raw.refFlavour ≠ none) ∧
      n.strict) .referenceOnly *>
  vcheck ((n.type = .frame ∨ n.type = .edgeless_text ∨ n.type = .note) ∧
      ¬(1 ≤ n.width ∧ n.width ≤ 10000)) (.widthRange n.type) *>
  vcheck ((n.type = .frame ∨ n.type = .edgeless_text ∨ n.type = .note) ∧
      ¬(1 ≤ n.height ∧ n.height ≤ 10000)) (.heightRange n.type) *>
  vcheck (¬(n.type = .frame ∨ n.type = .edgeless_text ∨ n.type = .note) ∧
      (raw.width ≠ none ∨ raw.height ≠ none) ∧ n.strict) .widthHeightOnly *>
  vcheck (n.type ≠ .frame ∧ n.type ≠ .note ∧ raw.background ≠ none ∧ n.strict)
    .backgroundOnly *>
  vcheck (n.type = .table ∧ ¬(1 ≤ n.rows ∧ n.rows ≤ 20)) .rowsRange *>
  vcheck (n.type = .table ∧ ¬(1 ≤ n.columns ∧ n.columns ≤ 20)) .columnsRange *>
  vcheck (n.type ≠ .table ∧ (raw.rows ≠ none ∨ raw.columns ≠ none) ∧ n.strict)
    .rowsColumnsOnly

/-- JS-style default of a trimmed optional string with a fallback for the
empty result ((x ?? d).trim() || d). -/
def trimOrDefault (o : Option String) (d : String) : String :=
  if jsTrim (o.getD d) = "" then d else jsTrim (o.getD d)

/-- Width and height defaulting: floor to at least 1, default 100. -/
def dimDefault (o : Option Int) : Int :=
  match o with
  | some w => max 1 w
  | none => 100

/-- Size defaulting: floor to at least 0, default 0. -/
def sizeDefault (o : Option Int) : Int :=
  match o with
  | some s => max 0 s
  | none => 0

/-- Language defaulting: trimmed, lowercased, empty falls back to txt. -/
def languageDefault (o : Option String) : String :=
  if jsToLower (jsTrim (o.getD "txt")) = "" then "txt"
  else jsToLower (jsTrim (o.getD "txt"))

/-- Validate the built record and return it (the tail of
normalizeAppendBlockInput). -/
def finishNormalize (urlOk : String → Bool) (parsed : AppendBlockInput)
    (n : NormalizedInput) : Except VErr NormalizedInput :=
  match validateNormalizedAppendBlockInput urlOk n parsed with
  | .error e => .error e
  | .ok _ => .ok n

/-- normalizeAppendBlockInput: resolve the type, apply defaults and alias
precedence, normalize the placement, then validate. -/
def normalizeAppendBlockInput (urlOk : String → Bool) (parsed : AppendBlockInput) :
    Except VErr NormalizedInput :=
  match normalizeBlockTypeInput parsed.type with
  | .error e => .error e
  | .ok typeInfo =>
    match normalizePlacement parsed.placement with
    | .error e => .error e
    | .ok placement =>
      finishNormalize urlOk parsed
        { workspaceId := parsed.workspaceId
          docId := parsed.docId
          type := typeInfo.type
          strict := parsed.strict ≠ some false
          placement := placement
          text := (parsed.text).getD ""
          url := jsTrim ((parsed.url).getD "")
          pageId := jsTrim ((parsed.pageId).getD "")
          iframeUrl := jsTrim ((parsed.iframeUrl).getD "")
          html := (parsed.html).getD ""
          design := (parsed.design).getD ""
          reference := jsTrim ((parsed.reference).getD "")
          refFlavour := jsTrim ((parsed.refFlavour).getD "")
          width := dimDefault parsed.width
          height := dimDefault parsed.height
          background := trimOrDefault parsed.background "transparent"
          sourceId := jsTrim ((parsed.sourceId).getD "")
          name := trimOrDefault parsed.name "attachment"
          mimeType := trimOrDefault parsed.mimeType "application/octet-stream"
          size := sizeDefault parsed.size
          embed := (parsed.embed).getD false
          rows := (parsed.rows).getD 3
          columns := (parsed.columns).getD 3
          latex := jsTrim ((parsed.latex).getD "")
          headingLevel :=
            max 1 (min 6 ((parsed.level).getD ((typeInfo.headingLevelFromAlias).getD 1)))
          listStyle := (typeInfo.listStyleFromAlias).getD ((parsed.style).getD .bulleted)
          bookmarkStyle := (parsed.bookmarkStyle).getD .horizontal
          checked := (parsed.checked).getD false
          language := languageDefault parsed.language
          caption := parsed.caption
          legacyType := typeInfo.legacyType }

/-- The block built by ensureNoteBlock when no note exists (its default
geometry and background). -/
def defaultNoteBlock (noteId pageId : String) : Block :=
  { sysId := noteId, flavour := "affine:note", version := blockVersion "affine:note",
    parent := some pageId, children := some [],
    props :=
      [("prop:xywh", .vStr "[0,0,800,95]"),
       ("prop:index", .vStr "a0"),
       ("prop:hidden", .vBool false),
       ("prop:displayMode", .vStr "both"),
       ("prop:background", .vMap [("light", .vStr "#ffffff"), ("dark", .vStr "#252525")])] }

/-- The block built by ensureSurfaceBlock when no surface exists. -/
def defaultSurfaceBlock (surfaceId pageId : String) : Block :=
  { sysId := surfaceId, flavour := "affine:surface",
    version := blockVersion "affine:surface",
    parent := some pageId, children := some [],
    props :=
      [("prop:elements",
        .vMap [("type", .vStr "$blocksuite:internal:native$"), ("value", .vMap [])])] }

/-- ensureNoteBlock: return the existing note id, or create a default note
under the page (consuming one generated id) and link it at the end of the
page children; fails when the document has no page block.  The internalFault
case models the runtime TypeError the code hits when the page id found by
flavour is not a key of the blocks map. -/
def ensureNoteBlockS (ids : Nat → String) (k : Nat) (blocks : Blocks) :
    (Except VErr String) × Blocks × Nat :=
  match findBlockIdByFlavour blocks "affine:note" with
  | some existingNoteId => (.ok existingNoteId, blocks, k)
  | none =>
    match findBlockIdByFlavour blocks "affine:page" with
    | none => (.error .noPageForContent, blocks, k)
    | some pageId =>
      match mapGet (mapSet blocks (ids k) (defaultNoteBlock (ids k) pageId)) pageId with
      | none =>
        (.error .internalFault, mapSet blocks (ids k) (defaultNoteBlock (ids k) pageId), k + 1)
      | some page =>
        (.ok (ids k),
         mapSet (mapSet blocks (ids k) (defaultNoteBlock (ids k) pageId)) pageId
           { page with children := some ((page.children.getD []) ++ [.arr [ids k]]) },
         k + 1)

/-- ensureSurfaceBlock: same shape as ensureNoteBlockS for the surface. -/
def ensureSurfaceBlockS (ids : Nat → String) (k : Nat) (blocks : Blocks) :
    (Except VErr String) × Blocks × Nat :=
  match findBlockIdByFlavour blocks "affine:surface" with
  | some existingSurfaceId => (.ok existingSurfaceId, blocks, k)
  | none =>
    match findBlockIdByFlavour blocks "affine:page" with
    | none => (.error .noPageForSurface, blocks, k)
    | some pageId =>
      match mapGet (mapSet blocks (ids k) (defaultSurfaceBlock (ids k) pageId)) pageId with
      | none =>
        (.error .internalFault, mapSet blocks (ids k) (defaultSurfaceBlock (ids k) pageId), k + 1)
      | some page =>
        (.ok (ids k),
         mapSet (mapSet blocks (ids k) (defaultSurfaceBlock (ids k) pageId)) pageId
           { page with children := some ((page.children.getD []) ++ [.arr [ids k]]) },
         k + 1)

/-- Insertion mode of resolveInsertContext, carrying the data each mode
needs (the reference id for after/before, the requested index). -/
inductive InsMode where
  | append
  | byIndex (i : Int)
  | after (r : String)
  | before (r : String)
deriving Repr, DecidableEq

/-- The placement if-chain of resolveInsertContext followed by the implicit
parent selection: determines the target parent id and the insertion mode,
possibly creating the surface or note singleton. -/
def resolveParentPhase (ids : Nat → String) (k : Nat) (blocks : Blocks)
    (n : NormalizedInput) : (Except VErr (String × InsMode)) × Blocks × Nat :=
  match n.placement.bind (fun p => truthy p.afterBlockId) with
  | some r =>
    match findBlockById blocks r with
    | none => (.error (.refNotFound true r), blocks, k)
    | some referenceBlock =>
      match truthy referenceBlock.parent with
      | none => (.error (.refNoParent r), blocks, k)
      | some refParentId => (.ok (refParentId, .after r), blocks, k)
  | none =>
  match n.placement.bind (fun p => truthy p.beforeBlockId) with
  | some r =>
    match findBlockById blocks r with
    | none => (.error (.refNotFound false r), blocks, k)
    | some referenceBlock =>
      match truthy referenceBlock.parent with
      | none => (.error (.refNoParent r), blocks, k)
      | some refParentId => (.ok (refParentId, .before r), blocks, k)
  | none =>
  match n.placement.bind (fun p => truthy p.parentId) with
  | some parentId =>
    match n.placement.bind (·.index) with
    | some i => (.ok (parentId, .byIndex i), blocks, k)
    | none => (.ok (parentId, .append), blocks, k)
  | none =>
    if n.type = .frame ∨ n.type = .edgeless_text then
      match ensureSurfaceBlockS ids k blocks with
      | (.error e, b, k') => (.error e, b, k')
      | (.ok sid, b, k') => (.ok (sid, .append), b, k')
    else if n.type = .note then
      match findBlockIdByFlavour blocks "affine:page" with
      | none => (.error .noPageForNote, blocks, k)
      | some pageId => (.ok (pageId, .append), blocks, k)
    else
      match ensureNoteBlockS ids k blocks with
      | (.error e, b, k') => (.error e, b, k')
      | (.ok nid, b, k') => (.ok (nid, .append), b, k')

/-- The strict-mode containment checks of resolveInsertContext, in source
order. -/
def containmentCheck (strict : Bool) (t : BlockType) (parentFlavour : String) :
    Except VErr Unit :=
  if strict then
    if parentFlavour = "affine:page" ∧ t ≠ .note then
      .error (.cannotAppendUnderPage t)
    else if parentFlavour = "affine:surface" ∧ t ≠ .frame ∧ t ≠ .edgeless_text then
      .error (.cannotAppendUnderSurface t)
    else if t = .note ∧ parentFlavour ≠ "affine:page" then
      .error .noteMustBeUnderPage
    else if (t = .frame ∨ t = .edgeless_text) ∧ parentFlavour ≠ "affine:surface" then
      .error (.mustBeUnderSurface t)
    else .ok ()
  else .ok ()

/-- The insertIndex computation of resolveInsertContext.  Seen indices are
non-negative in every real call (normalizePlacement rejects negatives), so
the toNat truncation is exact there. -/
def insertIndexFor (strict : Bool) (mode : InsMode) (children : List ChildEntry) :
    Except VErr Nat :=
  match mode with
  | .append => .ok children.length
  | .after r =>
    if indexOfChild children r < 0 then .error (.refNotChild r)
    else .ok ((indexOfChild children r).toNat + 1)
  | .before r =>
    if indexOfChild children r < 0 then .error (.refNotChild r)
    else .ok (indexOfChild children r).toNat
  | .byIndex i =>
    if i > (children.length : Int) ∧ strict then
      .error (.indexOutOfRange i children.length)
    else .ok (min i (children.length : Int)).toNat

/-- Result of resolveInsertContext: target parent, its (ensured) children
array, and the insertion index. -/
structure InsertCtx where
  parentId : String
  parentBlock : Block
  children : List ChildEntry
  insertIndex : Nat
deriving Repr

/-- resolveInsertContext: resolve parent and mode, look the parent up,
enforce containment in strict mode, ensure the children array exists, then
compute the insertion index.  The returned Blocks value is the state of the
in-memory map at the point of return (mutations by ensure* and by
ensureChildrenArray included). -/
def resolveInsertContext (ids : Nat → String) (k : Nat) (blocks : Blocks)
    (n : NormalizedInput) : (Except VErr InsertCtx) × Blocks × Nat :=
  match resolveParentPhase ids k blocks n with
  | (.error e, b, k') => (.error e, b, k')
  | (.ok (parentId, mode), b, k') =>
    match findBlockById b parentId with
    | none => (.error (.parentNotFound parentId), b, k')
    | some parentBlock =>
      match containmentCheck n.strict n.type parentBlock.flavour with
      | .error e => (.error e, b, k')
      | .ok _ =>
        match insertIndexFor n.strict mode (parentBlock.children.getD []) with
        | .error e =>
          (.error e,
           if parentBlock.children.isSome then b
           else mapSet b parentId { parentBlock with children := some [] },
           k')
        | .ok i =>
          (.ok { parentId := parentId,
                 parentBlock := { parentBlock with children := some (parentBlock.children.getD []) },
                 children := parentBlock.children.getD [], insertIndex := i },
           if parentBlock.children.isSome then b
           else mapSet b parentId { parentBlock with children := some [] },
           k')

/-- Canonical string of a list style. -/
def ListStyle.toStr : ListStyle → String
  | .bulleted => "bulleted"
  | .numbered => "numbered"
  | .todo => "todo"

/-- Canonical string of a bookmark style. -/
def BookmarkStyle.toStr : BookmarkStyle → String
  | .vertical => "vertical"
  | .horizontal => "horizontal"
  | .list => "list"
  | .cube => "cube"
  | .citation => "citation"

/-- String(i).padStart(4, zero digit). -/
def pad4 (i : Nat) : String :=
  let s := toString i
  if s.length ≥ 4 then s
  else String.mk (List.replicate (4 - s.length) '0') ++ s

/-- normalized.caption ?? null. -/
def captionOrNull : Option String → Val
  | some c => .vStr c
  | none => .vNull

/-- normalized.caption ?? undefined. -/
def captionOrUndef : Option String → Val
  | some c => .vStr c
  | none => (.vUndef)

/-- normalized.caption ?? the empty string. -/
def captionOrEmpty : Option String → Val
  | some c => .vStr c
  | none => .vStr ""

/-- JS value-or-undefined for a string (s || undefined). -/
def strOrUndef (s : String) : Val :=
  if s = "" then .vUndef else .vStr s

/-- Result of createBlock. -/
structure CreateResult where
  blockId : String
  block : Block
  flavour : String
  blockType : Option String := none
deriving Repr

/-- createBlock: build a fresh block for the normalized request.  Fresh ids
are drawn from ids starting at position k in generateId call order: the
block id first, then (for tables) one id per row and one per column. -/
def createBlock (ids : Nat → String) (k : Nat) (parentId : String)
    (n : NormalizedInput) : CreateResult :=
  let blockId := ids k
  let content := n.text
  let base (flavour : String) (props : List (String × Val)) : Block :=
    { sysId := blockId, flavour := flavour, version := blockVersion flavour,
      parent := some parentId, children := some [], props := props }
  match n.type with
  | .paragraph | .heading | .quote =>
    let blockType :=
      if n.type = .heading then "h" ++ toString n.headingLevel
      else if n.type = .quote then "quote"
      else "text"
    { blockId := blockId,
      block := base "affine:paragraph"
        [("prop:type", .vStr blockType), ("prop:text", .vText content)],
      flavour := "affine:paragraph", blockType := some blockType }
  | .list =>
    { blockId := blockId,
      block := base "affine:list"
        [("prop:type", .vStr n.listStyle.toStr),
         ("prop:checked", .vBool (if n.listStyle = .todo then n.checked else false)),
         ("prop:text", .vText content)],
      flavour := "affine:list", blockType := some n.listStyle.toStr }
  | .code =>
    { blockId := blockId,
      block := base "affine:code"
        ([("prop:language", .vStr n.language)] ++
         (match truthy n.caption with
          | some c => [("prop:caption", .vStr c)]
          | none => []) ++
         [("prop:text", .vText content)]),
      flavour := "affine:code" }
  | .divider =>
    { blockId := blockId, block := base "affine:divider" [],
      flavour := "affine:divider" }
  | .callout =>
    { blockId := blockId,
      block := base "affine:callout"
        [("prop:icon", .vMap [("type", .vStr "emoji"), ("unicode", .vStr "💡")]),
         ("prop:backgroundColorName", .vStr "grey"),
         ("prop:text", .vText content)],
      flavour := "affine:callout" }
  | .latex =>
    { blockId := blockId,
      block := base "affine:latex"
        [("prop:xywh", .vStr "[0,0,16,16]"),
         ("prop:index", .vStr "a0"),
         ("prop:lockedBySelf", .vBool false),
         ("prop:scale", .vNum 1),
         ("prop:rotate", .vNum 0),
         ("prop:latex", .vStr n.latex)],
      flavour := "affine:latex" }
  | .table =>
    let rcount := n.rows.toNat
    let ccount := n.columns.toNat
    let rowIds := (List.range rcount).map fun i => ids (k + 1 + i)
    let colIds := (List.range ccount).map fun i => ids (k + 1 + rcount + i)
    let rows := (List.range rcount).map fun i =>
      (ids (k + 1 + i),
       Val.vMap [("rowId", .vStr (ids (k + 1 + i))), ("order", .vStr ("r" ++ pad4 i))])
    let columns := (List.range ccount).map fun i =>
      (ids (k + 1 + rcount + i),
       Val.vMap [("columnId", .vStr (ids (k + 1 + rcount + i))),
                 ("order", .vStr ("c" ++ pad4 i))])
    let cells := rowIds.flatMap fun r =>
      colIds.map fun c => (r ++ ":" ++ c, Val.vMap [("text", .vText "")])
    { blockId := blockId,
      block := base "affine:table"
        [("prop:rows", .vMap rows),
         ("prop:columns", .vMap columns),
         ("prop:cells", .vMap cells),
         ("prop:comments", .vUndef),
         ("prop:textAlign", .vUndef)],
      flavour := "affine:table" }
  | .bookmark =>
    { blockId := blockId,
      block := base "affine:bookmark"
        [("prop:style", .vStr n.bookmarkStyle.toStr),
         ("prop:url", .vStr n.url),
         ("prop:caption", captionOrNull n.caption),
         ("prop:description", .vNull),
         ("prop:icon", .vNull),
         ("prop:image", .vNull),
         ("prop:title", .vNull),
         ("prop:xywh", .vStr "[0,0,0,0]"),
         ("prop:index", .vStr "a0"),
         ("prop:lockedBySelf", .vBool false),
         ("prop:rotate", .vNum 0),
         ("prop:footnoteIdentifier", .vNull)],
      flavour := "affine:bookmark" }
  | .image =>
    { blockId := blockId,
      block := base "affine:image"
        [("prop:caption", captionOrEmpty n.caption),
         ("prop:sourceId", .vStr n.sourceId),
         ("prop:width", .vNum 0),
         ("prop:height", .vNum 0),
         ("prop:size", .vNum (if n.size = 0 then -1 else n.size)),
         ("prop:xywh", .vStr "[0,0,0,0]"),
         ("prop:index", .vStr "a0"),
         ("prop:lockedBySelf", .vBool false),
         ("prop:rotate", .vNum 0)],
      flavour := "affine:image" }
  | .attachment =>
    { blockId := blockId,
      block := base "affine:attachment"
        [("prop:name", .vStr n.name),
         ("prop:size", .vNum n.size),
         ("prop:type", .vStr n.mimeType),
         ("prop:sourceId", .vStr n.sourceId),
         ("prop:caption", captionOrUndef n.caption),
         ("prop:embed", .vBool n.embed),
         ("prop:style", .vStr "horizontalThin"),
         ("prop:index", .vStr "a0"),
         ("prop:xywh", .vStr "[0,0,0,0]"),
         ("prop:lockedBySelf", .vBool false),
         ("prop:rotate", .vNum 0),
         ("prop:footnoteIdentifier", .vNull)],
      flavour := "affine:attachment" }
  | .embed_youtube =>
    { blockId := blockId,
      block := base "affine:embed-youtube"
        [("prop:index", .vStr "a0"),
         ("prop:xywh", .vStr "[0,0,0,0]"),
         ("prop:lockedBySelf", .vBool false),
         ("prop:rotate", .vNum 0),
         ("prop:style", .vStr "video"),
         ("prop:url", .vStr n.url),
         ("prop:caption", captionOrNull n.caption),
         ("prop:image", .vNull),
         ("prop:title", .vNull),
         ("prop:description", .vNull),
         ("prop:creator", .vNull),
         ("prop:creatorUrl", .vNull),
         ("prop:creatorImage", .vNull),
         ("prop:videoId", .vNull)],
      flavour := "affine:embed-youtube" }
  | .embed_github =>
    { blockId := blockId,
      block := base "affine:embed-github"
        [("prop:index", .vStr "a0"),
         ("prop:xywh", .vStr "[0,0,0,0]"),
         ("prop:lockedBySelf", .vBool false),
         ("prop:rotate", .vNum 0),
         ("prop:style", .vStr "horizontal"),
         ("prop:owner", .vStr ""),
         ("prop:repo", .vStr ""),
         ("prop:githubType", .vStr "issue"),
         ("prop:githubId", .vStr ""),
         ("prop:url", .vStr n.url),
         ("prop:caption", captionOrNull n.caption),
         ("prop:image", .vNull),
         ("prop:status", .vNull),
         ("prop:statusReason", .vNull),
         ("prop:title", .vNull),
         ("prop:description", .vNull),
         ("prop:createdAt", .vNull),
         ("prop:assignees", .vNull)],
      flavour := "affine:embed-github" }
  | .embed_figma =>
    { blockId := blockId,
      block := base "affine:embed-figma"
        [("prop:index", .vStr "a0"),
         ("prop:xywh", .vStr "[0,0,0,0]"),
         ("prop:lockedBySelf", .vBool false),
         ("prop:rotate", .vNum 0),
         ("prop:style", .vStr "figma"),
         ("prop:url", .vStr n.url),
         ("prop:caption", captionOrNull n.caption),
         ("prop:title", .vNull),
         ("prop:description", .vNull)],
      flavour := "affine:embed-figma" }
  | .embed_loom =>
    { blockId := blockId,
      block := base "affine:embed-loom"
        [("prop:index", .vStr "a0"),
         ("prop:xywh", .vStr "[0,0,0,0]"),
         ("prop:lockedBySelf", .vBool false),
         ("prop:rotate", .vNum 0),
         ("prop:style", .vStr "video"),
         ("prop:url", .vStr n.url),
         ("prop:caption", captionOrNull n.caption),
         ("prop:image", .vNull),
         ("prop:title", .vNull),
         ("prop:description", .vNull),
         ("prop:videoId", .vNull)],
      flavour := "affine:embed-loom" }
  | .embed_html =>
    { blockId := blockId,
      block := base "affine:embed-html"
        [("prop:index", .vStr "a0"),
         ("prop:xywh", .vStr "[0,0,0,0]"),
         ("prop:lockedBySelf", .vBool false),
         ("prop:rotate", .vNum 0),
         ("prop:style", .vStr "html"),
         ("prop:caption", captionOrNull n.caption),
         ("prop:html", strOrUndef n.html),
         ("prop:design", strOrUndef n.design)],
      flavour := "affine:embed-html" }
  | .embed_linked_doc =>
    { blockId := blockId,
      block := base "affine:embed-linked-doc"
        [("prop:index", .vStr "a0"),
         ("prop:xywh", .vStr "[0,0,0,0]"),
         ("prop:lockedBySelf", .vBool false),
         ("prop:rotate", .vNum 0),
         ("prop:style", .vStr "horizontal"),
         ("prop:caption", captionOrNull n.caption),
         ("prop:pageId", .vStr n.pageId),
         ("prop:title", .vUndef),
         ("prop:description", .vUndef),
         ("prop:footnoteIdentifier", .vNull)],
      flavour := "affine:embed-linked-doc" }
  | .embed_synced_doc =>
    { blockId := blockId,
      block := base "affine:embed-synced-doc"
        [("prop:index", .vStr "a0"),
         ("prop:xywh", .vStr "[0,0,800,100]"),
         ("prop:lockedBySelf", .vBool false),
         ("prop:rotate", .vNum 0),
         ("prop:style", .vStr "syncedDoc"),
         ("prop:caption", captionOrUndef n.caption),
         ("prop:pageId", .vStr n.pageId),
         ("prop:scale", .vUndef),
         ("prop:preFoldHeight", .vUndef),
         ("prop:title", .vUndef),
         ("prop:description", .vUndef)],
      flavour := "affine:embed-synced-doc" }
  | .embed_iframe =>
    { blockId := blockId,
      block := base "affine:embed-iframe"
        [("prop:index", .vStr "a0"),
         ("prop:xywh", .vStr "[0,0,0,0]"),
         ("prop:lockedBySelf", .vBool false),
         ("prop:scale", .vNum 1),
         ("prop:url", .vStr n.url),
         ("prop:iframeUrl", .vStr (if n.iframeUrl = "" then n.url else n.iframeUrl)),
         ("prop:width", .vUndef),
         ("prop:height", .vUndef),
         ("prop:caption", captionOrNull n.caption),
         ("prop:title", .vNull),
         ("prop:description", .vNull)],
      flavour := "affine:embed-iframe" }
  | .database =>
    { blockId := blockId,
      block := base "affine:database"
        [("prop:views", .vArr []),
         ("prop:title", .vText content),
         ("prop:cells", .vMap []),
         ("prop:columns", .vArr []),
         ("prop:comments", .vUndef)],
      flavour := "affine:database" }
  | .data_view =>
    -- The compatibility shim: a database block body under the data_view
    -- label, reported through the data_view fallback block type.
    { blockId := blockId,
      block := base "affine:database"
        [("prop:views", .vArr []),
         ("prop:title", .vText content),
         ("prop:cells", .vMap []),
         ("prop:columns", .vArr []),
         ("prop:comments", .vUndef)],
      flavour := "affine:database", blockType := some "data_view_fallback" }
  | .surface_ref =>
    { blockId := blockId,
      block := base "affine:surface-ref"
        [("prop:reference", .vStr n.reference),
         ("prop:caption", captionOrEmpty n.caption),
         ("prop:refFlavour", .vStr n.refFlavour),
         ("prop:comments", .vUndef)],
      flavour := "affine:surface-ref" }
  | .frame =>
    { blockId := blockId,
      block := base "affine:frame"
        [("prop:title", .vText (if content = "" then "Frame" else content)),
         ("prop:background", .vStr n.background),
         ("prop:xywh",
          .vStr ("[0,0," ++ toString n.width ++ "," ++ toString n.height ++ "]")),
         ("prop:index", .vStr "a0"),
         ("prop:childElementIds", .vMap []),
         ("prop:presentationIndex", .vStr "a0"),
         ("prop:lockedBySelf", .vBool false)],
      flavour := "affine:frame" }
  | .edgeless_text =>
    { blockId := blockId,
      block := base "affine:edgeless-text"
        [("prop:xywh",
          .vStr ("[0,0," ++ toString n.width ++ "," ++ toString n.height ++ "]")),
         ("prop:index", .vStr "a0"),
         ("prop:lockedBySelf", .vBool false),
         ("prop:scale", .vNum 1),
         ("prop:rotate", .vNum 0),
         ("prop:hasMaxWidth", .vBool false),
         ("prop:comments", .vUndef),
         ("prop:color", .vStr "black"),
         ("prop:fontFamily", .vStr "Inter"),
         ("prop:fontStyle", .vStr "normal"),
         ("prop:fontWeight", .vStr "regular"),
         ("prop:textAlign", .vStr "left")],
      flavour := "affine:edgeless-text" }
  | .note =>
    { blockId := blockId,
      block := base "affine:note"
        [("prop:xywh",
          .vStr ("[0,0," ++ toString n.width ++ "," ++ toString n.height ++ "]")),
         ("prop:background", .vStr n.background),
         ("prop:index", .vStr "a0"),
         ("prop:lockedBySelf", .vBool false),
         ("prop:hidden", .vBool false),
         ("prop:displayMode", .vStr "both"),
         ("prop:edgeless",
          .vMap [("style",
                  .vMap [("borderRadius", .vNum 8), ("borderSize", .vNum 1),
                         ("borderStyle", .vStr "solid"), ("shadowType", .vStr "none")])]),
         ("prop:comments", .vUndef)],
      flavour := "affine:note" }

/-- Insert an element at an index of a children list (Y.Array.insert);
appends when the index is beyond the end, matching the push branch the code
takes for insertIndex at or past children.length. -/
def insertChildAt : Nat → ChildEntry → List ChildEntry → List ChildEntry
  | 0, x, l => x :: l
  | _ + 1, x, [] => [x]
  | i + 1, x, a :: l => a :: insertChildAt i x l

/-- The success payload of appendBlockInternal. -/
structure AppendOut where
  blockId : String
  flavour : String
  blockType : Option String
  normalizedType : BlockType
  legacyType : Option LegacyType
deriving Repr, DecidableEq

/-- The in-memory mutation core of appendBlockInternal (after the snapshot
is loaded, before the delta push): resolve the insert context, build the
block, store it in the map, and link it into the resolved children array.
The blockId = parentId guard models the Y.Map aliasing of the code: when
the fresh block id collides with the parent key, blocks.set replaces the
parent entry and the subsequent children mutation lands on the orphaned
array, leaving the map without the link. -/
def appendBlockMem (ids : Nat → String) (blocks : Blocks) (n : NormalizedInput) :
    (Except VErr AppendOut) × Blocks :=
  match resolveInsertContext ids 0 blocks n with
  | (.error e, b, _) => (.error e, b)
  | (.ok ctx, b, k1) =>
    let r := createBlock ids k1 ctx.parentId n
    let b2 := mapSet b r.blockId r.block
    let newChildren :=
      if ctx.insertIndex ≥ ctx.children.length then ctx.children ++ [.arr [r.blockId]]
      else insertChildAt ctx.insertIndex (.arr [r.blockId]) ctx.children
    let b3 :=
      if r.blockId = ctx.parentId then b2
      else mapSet b2 ctx.parentId { ctx.parentBlock with children := some newChildren }
    (.ok { blockId := r.blockId, flavour := r.flavour, blockType := r.blockType,
           normalizedType := n.type, legacyType := n.legacyType }, b3)

/-- The server side of a space load-doc exchange, as the client observes it:
an ack timeout, an ack carrying an error (name and message), or a success
ack whose data decodes to a blocks map (none when the missing field is
absent).  The base64/Yjs codec between bytes and the map is abstracted. -/
inductive LoadAck where
  | timeout
  | ackErr (name msg : String)
  | ackOk (missing : Option Blocks)

/-- loadDoc of the transport module: a DOC_NOT_FOUND ack error resolves to
the empty snapshot; every other ack error and the timeout reject. -/
def loadDoc : LoadAck → Except VErr (Option Blocks)
  | .timeout => .error .loadTimeout
  | .ackErr name msg =>
    if name = "DOC_NOT_FOUND" then .ok none else .error (.loadFailed msg)
  | .ackOk missing => .ok missing

/-- One network interaction of a handler. -/
inductive NetCall where
  | connect
  | join
  | loadCall (docId : String)
  | pushCall (docId : String)
  | deleteCall (docId : String)
deriving Repr, DecidableEq

/-- Whether a network call is a push. -/
def NetCall.isPush : NetCall → Bool
  | .pushCall _ => true
  | _ => false

/-- Result of running a handler: outcome plus the ordered list of network
calls it issued (the failing call included). -/
abbrev StepRes (α : Type) := Except VErr α × List NetCall

/-- Sequence a step: on failure the remaining steps do not run and the
trace so far is kept. -/
def seqN {α β : Type} (x : StepRes α) (f : α → List NetCall → StepRes β) : StepRes β :=
  match x with
  | (.ok a, tr) => f a tr
  | (.error e, tr) => (.error e, tr)

/-- Issue one network call: it is recorded on the trace and resolves as the
oracle decides. -/
def callNet {α : Type} (tr : List NetCall) (c : NetCall) (r : Except VErr α) : StepRes α :=
  (r, tr ++ [c])

/-- The environment a handler runs against: outcomes of the connect and
join handshakes and, per doc id, of load and push acks. -/
structure WireOracle where
  connectAck : Except VErr Unit
  joinAck : Except VErr Unit
  loadAck : String → LoadAck
  pushAck : String → Except VErr Nat

/-- appendBlockInternal: normalize (before any network access), require a
workspace id, connect, join, load the target doc snapshot, mutate the
in-memory map, then push the delta as the final network step. -/
def appendBlockRun (urlOk : String → Bool) (ids : Nat → String) (o : WireOracle)
    (defaultWorkspaceId : Option String) (parsed : AppendBlockInput) :
    StepRes AppendOut :=
  match normalizeAppendBlockInput urlOk parsed with
  | .error e => (.error e, [])
  | .ok n =>
    match (truthy n.workspaceId).orElse (fun _ => truthy defaultWorkspaceId) with
    | none => (.error .workspaceRequired, [])
    | some _ =>
      seqN (callNet [] .connect o.connectAck) fun _ tr =>
      seqN (callNet tr .join o.joinAck) fun _ tr =>
      seqN (callNet tr (.loadCall n.docId) (loadDoc (o.loadAck n.docId))) fun snapshot tr =>
      let doc : Blocks := snapshot.getD []
      match appendBlockMem ids doc n with
      | (.error e, _) => (.error e, tr)
      | (.ok out, _) =>
        seqN (callNet tr (.pushCall n.docId) (o.pushAck n.docId)) fun _ tr =>
        (.ok out, tr)

/-- One output row of read_doc. -/
structure ReadRow where
  id : String
  parentId : Option String
  flavour : Option String
  type : Option String
  text : Option String
  checked : Option Bool
  language : Option String
  childIds : List String
deriving Repr, DecidableEq

/-- Output of read_doc. -/
structure ReadDocOut where
  docId : String
  title : Option String
  docExists : Bool
  blockCount : Nat
  blocks : List ReadRow
  plainText : String
deriving Repr, DecidableEq

/-- Accumulated traversal state of the read_doc visit function. -/
structure VisitState where
  visited : List String
  rows : List ReadRow
  lines : List String
  title : String
deriving Repr, DecidableEq

/-- The recursive visit of readDocHandler: mark visited, emit the row,
collect text and the page title, then recurse into the child ids.  Fuel
bounds the recursion depth; blocks.length + 1 is enough because every
nested call is on a newly visited map key. -/
def visitOne (blocks : Blocks) : Nat → VisitState → String → VisitState
  | 0, st, _ => st
  | fuel + 1, st, blockId =>
    if blockId ∈ st.visited then st
    else
      let st1 := { st with visited := st.visited ++ [blockId] }
      match mapGet blocks blockId with
      | none => st1
      | some b =>
        let textValue := asText (b.getProp "prop:text")
        let childIds := childIdsFrom b.children
        let newTitle :=
          if b.flavour = "affine:page" then
            let t := asText (b.getProp "prop:title")
            if t = "" then st1.title else t
          else st1.title
        let newLines := if textValue = "" then st1.lines else st1.lines ++ [textValue]
        let row : ReadRow :=
          { id := blockId,
            parentId := b.parent,
            flavour := some b.flavour,
            type := match b.getProp "prop:type" with
                    | some (.vStr s) => some s
                    | _ => none,
            text := if textValue = "" then none else some textValue,
            checked := match b.getProp "prop:checked" with
                       | some (.vBool c) => some c
                       | _ => none,
            language := match b.getProp "prop:language" with
                        | some (.vStr s) => some s
                        | _ => none,
            childIds := childIds }
        let st2 :=
          { st1 with
            rows := st1.rows ++ [row]
            lines := newLines
            title := newTitle }
        childIds.foldl (fun acc cid => visitOne blocks fuel acc cid) st2

/-- The post-load body of readDocHandler on an existing snapshot: visit from
the page (else the note), then every not-yet-visited key in map order. -/
def readDocBody (docId : String) (blocks : Blocks) : ReadDocOut :=
  let fuel := blocks.length + 1
  let st0 : VisitState := { visited := [], rows := [], lines := [], title := "" }
  let st1 :=
    match findBlockIdByFlavour blocks "affine:page" with
    | some pageId => visitOne blocks fuel st0 pageId
    | none =>
      match findBlockIdByFlavour blocks "affine:note" with
      | some noteId => visitOne blocks fuel st0 noteId
      | none => st0
  let st2 := blocks.foldl
    (fun acc kb => if kb.1 ∈ acc.visited then acc else visitOne blocks fuel acc kb.1) st1
  { docId := docId,
    title := if st2.title = "" then none else some st2.title,
    docExists := true,
    blockCount := st2.rows.length,
    blocks := st2.rows,
    plainText := String.intercalate "\n" st2.lines }

/-- readDocHandler: connect, join, load; a missing snapshot is reported as
a successful, empty read (docExists false), never as an error. -/
def readDocRun (o : WireOracle) (defaultWorkspaceId : Option String)
    (workspaceId : Option String) (docId : String) : StepRes ReadDocOut :=
  match (truthy workspaceId).orElse (fun _ => truthy defaultWorkspaceId) with
  | none => (.error .workspaceRequired, [])
  | some _ =>
    seqN (callNet [] .connect o.connectAck) fun _ tr =>
    seqN (callNet tr .join o.joinAck) fun _ tr =>
    seqN (callNet tr (.loadCall docId) (loadDoc (o.loadAck docId))) fun snapshot tr =>
    match snapshot with
    | none =>
      (.ok { docId := docId, title := none, docExists := false, blockCount := 0,
             blocks := [], plainText := "" }, tr)
    | some blocks => (.ok (readDocBody docId blocks), tr)

/-- The fresh content document built by createDocHandler: page with title,
surface, note, and one paragraph when non-empty content is given.  Ids are
consumed in generateId order: 0 the doc id (by the caller), then page,
surface, note, paragraph. -/
def createDocBlocks (ids : Nat → String) (title content : Option String) : Blocks :=
  let pageId := ids 1
  let surfaceId := ids 2
  let noteId := ids 3
  let page : Block :=
    { sysId := pageId, flavour := "affine:page", version := blockVersion "affine:page",
      parent := none,
      children := some [.arr [surfaceId], .arr [noteId]],
      props := [("prop:title", .vText (title.getD "Untitled"))] }
  let surface : Block :=
    { sysId := surfaceId, flavour := "affine:surface",
      version := blockVersion "affine:surface",
      parent := some pageId, children := some [],
      props := [("prop:elements",
        .vMap [("type", .vStr "$blocksuite:internal:native$"), ("value", .vMap [])])] }
  let noteChildren : List ChildEntry :=
    match truthy content with
    | some _ => [.arr [ids 4]]
    | none => []
  let note : Block :=
    { sysId := noteId, flavour := "affine:note", version := blockVersion "affine:note",
      parent := some pageId, children := some noteChildren,
      props :=
        [("prop:displayMode", .vStr "both"),
         ("prop:xywh", .vStr "[0,0,800,95]"),
         ("prop:index", .vStr "a0"),
         ("prop:hidden", .vBool false),
         ("prop:background", .vMap [("light", .vStr "#ffffff"), ("dark", .vStr "#252525")])] }
  match truthy content with
  | some c =>
    let para : Block :=
      { sysId := ids 4, flavour := "affine:paragraph", version := 1,
        parent := some noteId, children := some [],
        props := [("prop:type", .vStr "text"), ("prop:text", .vText c)] }
    [(pageId, page), (surfaceId, surface), (noteId, note), (ids 4, para)]
  | none => [(pageId, page), (surfaceId, surface), (noteId, note)]

/-- createDocHandler: connect, join, push the full encoding of the fresh
content document under a new doc id, then load the workspace index
document, append the catalog entry (a meta-document mutation, outside the
block model), and push the index delta.  The meta map (id, title,
createDate, tags) is not modelled beyond the returned title. -/
def createDocRun (ids : Nat → String) (o : WireOracle)
    (defaultWorkspaceId : Option String) (workspaceId title content : Option String) :
    StepRes (String × String) :=
  match (truthy workspaceId).orElse (fun _ => truthy defaultWorkspaceId) with
  | none => (.error .workspaceRequired, [])
  | some ws =>
    seqN (callNet [] .connect o.connectAck) fun _ tr =>
    seqN (callNet tr .join o.joinAck) fun _ tr =>
    let docId := ids 0
    let _docBlocks := createDocBlocks ids title content
    seqN (callNet tr (.pushCall docId) (o.pushAck docId)) fun _ tr =>
    seqN (callNet tr (.loadCall ws) (loadDoc (o.loadAck ws))) fun _snapshot tr =>
    seqN (callNet tr (.pushCall ws) (o.pushAck ws)) fun _ tr =>
    (.ok (docId, title.getD "Untitled"), tr)

/-- deleteDocHandler: connect, join, load the workspace index, remove the
catalog entry (meta-document mutation, outside the block model), push the
index delta, then emit the fire-and-forget delete notice (no ack awaited,
so it cannot fail). -/
def deleteDocRun (o : WireOracle) (defaultWorkspaceId : Option String)
    (workspaceId : Option String) (docId : String) : StepRes Bool :=
  match (truthy workspaceId).orElse (fun _ => truthy defaultWorkspaceId) with
  | none => (.error .workspaceRequired, [])
  | some ws =>
    seqN (callNet [] .connect o.connectAck) fun _ tr =>
    seqN (callNet tr .join o.joinAck) fun _ tr =>
    seqN (callNet tr (.loadCall ws) (loadDoc (o.loadAck ws))) fun _snapshot tr =>
    seqN (callNet tr (.pushCall ws) (o.pushAck ws)) fun _ tr =>
    (.ok true, tr ++ [.deleteCall docId])

/-! Concrete fixtures used by witnesses and counterexamples. -/

/-- A deterministic id supply standing for generateId. -/
def idsEx : Nat → String := fun k => "nb" ++ toString k

/-- Example page block of the fixture document. -/
def pageEx : Block :=
  { sysId := "p1", flavour := "affine:page", version := 2, parent := none,
    children := some [.arr ["s1"], .arr ["n1"]],
    props := [("prop:title", .vText "Demo")] }

/-- Example surface block. -/
def surfaceEx : Block :=
  { sysId := "s1", flavour := "affine:surface", version := 5, parent := some "p1",
    children := some [],
    props := [("prop:elements",
      .vMap [("type", .vStr "$blocksuite:internal:native$"), ("value", .vMap [])])] }

/-- Example note block with one paragraph child. -/
def noteEx : Block :=
  { sysId := "n1", flavour := "affine:note", version := 1, parent := some "p1",
    children := some [.str "b1"], props := [] }

/-- Example paragraph block. -/
def paraEx : Block :=
  { sysId := "b1", flavour := "affine:paragraph", version := 1, parent := some "n1",
    children := some [],
    props := [("prop:type", .vStr "text"), ("prop:text", .vText "hello")] }

/-- The fixture document. -/
def docEx : Blocks := [("p1", pageEx), ("s1", surfaceEx), ("n1", noteEx), ("b1", paraEx)]

/-- A fixture document holding only a page. -/
def docPageOnly : Blocks :=
  [("p1", { pageEx with children := some [] })]

/-- Baseline normalized request (paragraph, strict, no placement). -/
def baseN : NormalizedInput := { type := .paragraph, docId := "d1" }

/-- Baseline raw request. -/
def baseIn : AppendBlockInput :=
  { workspaceId := some "w1", docId := "d1", type := "paragraph" }

/-- A wire oracle where every exchange succeeds and load yields the given
snapshot. -/
def okOracle (snap : Option Blocks) : WireOracle :=
  { connectAck := .ok (), joinAck := .ok (),
    loadAck := fun _ => .ackOk snap, pushAck := fun _ => .ok 1 }

/-- A wire oracle where every exchange succeeds but loading the given doc
reports a non-not-found server error. -/
def loadFailOracle (badDoc : String) : WireOracle :=
  { connectAck := .ok (), joinAck := .ok (),
    loadAck := fun d => if d = badDoc then .ackErr "INTERNAL" "boom" else .ackOk none,
    pushAck := fun _ => .ok 1 }

/-- A wire oracle where every load reports not-found and everything else
succeeds. -/
def notFoundOracle : WireOracle :=
  { connectAck := .ok (), joinAck := .ok (),
    loadAck := fun _ => .ackErr "DOC_NOT_FOUND" "doc not found",
    pushAck := fun _ => .ok 1 }

/-! Helper lemmas about the association-list map. -/

theorem mapGet_mapSet_self (m : Blocks) (k : String) (v : Block) :
    mapGet (mapSet m k v) k = some v := by
  induction m with
  | nil => simp [mapSet, mapGet]
  | cons hd tl ih =>
    by_cases h : hd.1 = k
    · simp [mapSet, mapGet, h]
    · simp [mapSet, mapGet, h, ih]

theorem mapGet_mapSet_other (m : Blocks) (k k' : String) (v : Block) (h : k ≠ k') :
    mapGet (mapSet m k v) k' = mapGet m k' := by
  induction m with
  | nil => simp [mapSet, mapGet, h]
  | cons hd tl ih =>
    by_cases hh : hd.1 = k
    · simp [mapSet, mapGet, hh, h]
    · simp [mapSet, mapGet, hh, ih]

/-- Inserting at or past the end of a children list appends. -/
theorem insertChildAt_ge_length (x : ChildEntry) :
    ∀ (l : List ChildEntry) (i : Nat), l.length ≤ i → insertChildAt i x l = l ++ [x] := by
  intro l
  induction l with
  | nil =>
    intro i _
    cases i <;> simp [insertChildAt]
  | cons hd tl ih =>
    intro i hi
    cases i with
    | zero => simp at hi
    | succ j =>
      simp only [List.length_cons, Nat.succ_le_succ_iff] at hi
      simp [insertChildAt, ih j hi]

/-- The spec-side containment predicate of C1: the four violating
combinations of resolved parent flavour and new block kind. -/
def badContainment (t : BlockType) (f : String) : Bool :=
  (f = "affine:page" && !(t = .note)) ||
  (f = "affine:surface" && !(t = .frame || t = .edgeless_text)) ||
  (t = .note && !(f = "affine:page")) ||
  ((t = .frame || t = .edgeless_text) && !(f = "affine:surface"))

/-- Whether an Except value is a containment error. -/
def isContErr {α : Type} : Except VErr α → Bool
  | .error e => e.isContainment
  | .ok _ => false

/-! Claim theorems. -/

/-- C7: appending a block with type data_view produces a block (body,
sys:flavour affine:database, sys:version, property set, and even the fresh
id) identical to the block produced by type database from the same
normalized fields; the two results differ only in the reported block-type
label (the data_view fallback marker versus none). -/
theorem dataView_databaseAlias (ids : Nat → String) (k : Nat) (parentId : String)
    (n : NormalizedInput) :
    (createBlock ids k parentId { n with type := .data_view }).block
      = (createBlock ids k parentId { n with type := .database }).block
    ∧ (createBlock ids k parentId { n with type := .data_view }).blockId
      = (createBlock ids k parentId { n with type := .database }).blockId
    ∧ (createBlock ids k parentId { n with type := .data_view }).flavour
      = "affine:database"
    ∧ (createBlock ids k parentId { n with type := .database }).flavour
      = "affine:database"
    ∧ (createBlock ids k parentId { n with type := .data_view }).blockType
      = some "data_view_fallback"
    ∧ (createBlock ids k parentId { n with type := .database }).blockType = none :=
  ⟨rfl, rfl, rfl, rfl, rfl, rfl⟩

/-- C8 counterexample: an append_block request of type attachment carrying a
sourceId but neither a name nor a mimeType passes normalization and
validation (both default), although the claim requires it to fail. -/
theorem attachment_nameMime_counterexample :
    (normalizeAppendBlockInput (fun _ => true)
      { baseIn with type := "attachment", sourceId := some "blob1" }).isOk = true
    ∧ (normalizeAppendBlockInput (fun _ => true)
        { baseIn with type := "attachment", sourceId := some "blob1" }).map
        (fun n => (n.name, n.mimeType))
      = .ok ("attachment", "application/octet-stream") := by
  exact ⟨by decide, by decide⟩

/-- Splitting a sequenced pair of checks that succeeded. -/
theorem seqRight_ok_split {a b : Except VErr Unit} (h : (a *> b) = .ok ()) :
    a = .ok () ∧ b = .ok () := by
  cases a with
  | error e => cases h
  | ok u => exact ⟨rfl, h⟩

/-- A succeeded check has a false condition. -/
theorem vcheck_ok {c : Prop} [Decidable c] {e : VErr} (h : vcheck c e = .ok ()) : ¬c := by
  intro hc
  unfold vcheck at h
  rw [if_pos hc] at h
  cases h

/-- A successful validation of an image or attachment request implies the
normalized sourceId is non-empty.  The checks chain left-associatively, so
the sourceId check (number 14 of 35) is reached by peeling 21 checks off
the right. -/
theorem validate_ok_sourceId (urlOk : String → Bool) (n : NormalizedInput)
    (raw : AppendBlockInput)
    (h : validateNormalizedAppendBlockInput urlOk n raw = .ok ())
    (ht : n.type = .image ∨ n.type = .attachment) : n.sourceId ≠ "" := by
  intro hs
  unfold validateNormalizedAppendBlockInput at h
  iterate 21 obtain ⟨h, -⟩ := seqRight_ok_split h
  obtain ⟨-, h14⟩ := seqRight_ok_split h
  exact vcheck_ok h14 ⟨ht, hs⟩

/-- The trimmed-or-defaulted strings of normalization are never empty when
the default is not. -/
theorem trimOrDefault_ne_empty (o : Option String) (d : String) (hd : d ≠ "") :
    trimOrDefault o d ≠ "" := by
  unfold trimOrDefault
  split
  · exact hd
  · assumption

/-- Inversion of a successful normalization: how the fields of the
normalized record are computed from the raw request. -/
theorem normalize_ok_inv (urlOk : String → Bool) (p : AppendBlockInput)
    (n : NormalizedInput) (hn : normalizeAppendBlockInput urlOk p = .ok n) :
    ∃ ti pl, normalizeBlockTypeInput p.type = .ok ti
      ∧ normalizePlacement p.placement = .ok pl
      ∧ validateNormalizedAppendBlockInput urlOk n p = .ok ()
      ∧ n.type = ti.type
      ∧ n.sourceId = jsTrim ((p.sourceId).getD "")
      ∧ n.name = trimOrDefault p.name "attachment"
      ∧ n.mimeType = trimOrDefault p.mimeType "application/octet-stream"
      ∧ n.listStyle = (ti.listStyleFromAlias).getD ((p.style).getD .bulleted)
      ∧ n.headingLevel =
          max 1 (min 6 ((p.level).getD ((ti.headingLevelFromAlias).getD 1)))
      ∧ n.legacyType = ti.legacyType
      ∧ n.strict = decide (p.strict ≠ some false)
      ∧ n.placement = pl := by
  unfold normalizeAppendBlockInput at hn
  split at hn
  · cases hn
  · rename_i ti hti
    split at hn
    · cases hn
    · rename_i pl hpl
      unfold finishNormalize at hn
      split at hn
      · cases hn
      · rename_i hv
        injection hn with hn
        subst hn
        exact ⟨ti, pl, hti, hpl, hv, rfl, rfl, rfl, rfl, rfl, rfl, rfl, rfl, rfl⟩

/-- C8 (amended): an append_block request resolving to type attachment or to
type image fails validation when no (non-whitespace) sourceId is provided;
the additional name and mimeType requirement of the claim is vacuous, because
normalization defaults both to non-empty values (attachment,
application/octet-stream), so a request without them still succeeds. -/
theorem attachmentImage_sourceId_required (urlOk : String → Bool)
    (p : AppendBlockInput) :
    ((normalizeBlockTypeInput p.type).map (·.type) = .ok .attachment →
      jsTrim ((p.sourceId).getD "") = "" →
      (normalizeAppendBlockInput urlOk p).isOk = false)
  ∧ ((normalizeBlockTypeInput p.type).map (·.type) = .ok .image →
      jsTrim ((p.sourceId).getD "") = "" →
      (normalizeAppendBlockInput urlOk p).isOk = false)
  ∧ (∀ n, normalizeAppendBlockInput urlOk p = .ok n →
      n.name ≠ "" ∧ n.mimeType ≠ "") := by
  refine ⟨?_, ?_, ?_⟩
  · intro hty hsrc
    cases hn : normalizeAppendBlockInput urlOk p with
    | error e => rfl
    | ok n =>
      exfalso
      obtain ⟨ti, pl, hti, -, hv, hnty, hnsrc, -⟩ := normalize_ok_inv urlOk p n hn
      rw [hti] at hty
      simp only [Except.map] at hty
      injection hty with hty
      refine validate_ok_sourceId urlOk n p hv (Or.inr (hnty.trans hty)) ?_
      rw [hnsrc, hsrc]
  · intro hty hsrc
    cases hn : normalizeAppendBlockInput urlOk p with
    | error e => rfl
    | ok n =>
      exfalso
      obtain ⟨ti, pl, hti, -, hv, hnty, hnsrc, -⟩ := normalize_ok_inv urlOk p n hn
      rw [hti] at hty
      simp only [Except.map] at hty
      injection hty with hty
      refine validate_ok_sourceId urlOk n p hv (Or.inl (hnty.trans hty)) ?_
      rw [hnsrc, hsrc]
  · intro n hn
    obtain ⟨ti, pl, -, -, -, -, -, hname, hmime, -⟩ := normalize_ok_inv urlOk p n hn
    rw [hname, hmime]
    exact ⟨trimOrDefault_ne_empty _ _ (by decide),
           trimOrDefault_ne_empty _ _ (by decide)⟩

/-- C8 witness: the amended theorem applied to a concrete attachment request
with an empty sourceId. -/
theorem attachmentImage_sourceId_required_witness :
    (normalizeBlockTypeInput "attachment").map (·.type) = .ok .attachment
    ∧ jsTrim ((none : Option String).getD "") = ""
    ∧ (normalizeAppendBlockInput (fun _ => true)
        { baseIn with type := "attachment" }).isOk = false := by
  refine ⟨by decide, by decide, ?_⟩
  exact (attachmentImage_sourceId_required (fun _ => true)
    { baseIn with type := "attachment" }).1 (by decide) (by decide)

/-- The two rejection rules of normalizePlacement named by C9. -/
theorem normalizePlacement_rejects (pl : AppendPlacement) :
    (trimTruthy pl.afterBlockId ≠ none → trimTruthy pl.beforeBlockId ≠ none →
      normalizePlacement (some pl) = .error .afterBeforeExclusive)
  ∧ (pl.index ≠ none →
      (trimTruthy pl.afterBlockId ≠ none ∨ trimTruthy pl.beforeBlockId ≠ none) →
      (normalizePlacement (some pl)).isOk = false) := by
  constructor
  · intro ha hb
    have ha' := Option.isSome_iff_ne_none.mpr ha
    have hb' := Option.isSome_iff_ne_none.mpr hb
    simp [normalizePlacement, ha', hb']
  · intro hidx hor
    cases hi : pl.index with
    | none => exact absurd hi hidx
    | some i =>
      by_cases hab : (trimTruthy pl.afterBlockId).isSome ∧ (trimTruthy pl.beforeBlockId).isSome
      · rw [show normalizePlacement (some pl) = .error .afterBeforeExclusive from by
          simp [normalizePlacement, hab]]
        rfl
      · have hone : (trimTruthy pl.afterBlockId).isSome ∨ (trimTruthy pl.beforeBlockId).isSome := by
          rcases hor with h | h
          · exact Or.inl (Option.isSome_iff_ne_none.mpr h)
          · exact Or.inr (Option.isSome_iff_ne_none.mpr h)
        by_cases hneg : i < 0
        · rw [show normalizePlacement (some pl) = .error .indexNegative from by
            simp [normalizePlacement, hab, hi, hneg]]
          rfl
        · rw [show normalizePlacement (some pl) = .error .indexWithRef from by
            simp [normalizePlacement, hab, hi, hneg, hone]]
          rfl

/-- Normalization fails whenever the placement normalization fails. -/
theorem normalize_err_of_placement_err (urlOk : String → Bool) (p : AppendBlockInput)
    (h : (normalizePlacement p.placement).isOk = false) :
    (normalizeAppendBlockInput urlOk p).isOk = false := by
  unfold normalizeAppendBlockInput
  split
  · rfl
  · split
    · rfl
    · rename_i pl hpl
      rw [hpl] at h
      cases h

/-- A failed normalization means appendBlockInternal issued no network
call. -/
theorem appendBlockRun_noNetwork_of_normalize_err (urlOk : String → Bool)
    (ids : Nat → String) (o : WireOracle) (dws : Option String) (p : AppendBlockInput)
    (h : (normalizeAppendBlockInput urlOk p).isOk = false) :
    (appendBlockRun urlOk ids o dws p).2 = [] := by
  unfold appendBlockRun
  split
  · rfl
  · rename_i n hn
    rw [hn] at h
    cases h

/-- C9: for every append_block request and every block kind, a placement
carrying both afterBlockId and beforeBlockId is rejected by normalization,
and a placement carrying index together with either reference is rejected
too; both rejections happen with no network call issued (the trace of the
run is empty). -/
theorem placementExclusivity_preNetwork (urlOk : String → Bool) (ids : Nat → String)
    (o : WireOracle) (dws : Option String) (p : AppendBlockInput)
    (pl : AppendPlacement) (hpl : p.placement = some pl) :
    (trimTruthy pl.afterBlockId ≠ none → trimTruthy pl.beforeBlockId ≠ none →
      (normalizeAppendBlockInput urlOk p).isOk = false
      ∧ (appendBlockRun urlOk ids o dws p).2 = [])
  ∧ (pl.index ≠ none →
      (trimTruthy pl.afterBlockId ≠ none ∨ trimTruthy pl.beforeBlockId ≠ none) →
      (normalizeAppendBlockInput urlOk p).isOk = false
      ∧ (appendBlockRun urlOk ids o dws p).2 = []) := by
  constructor
  · intro ha hb
    have hperr : (normalizePlacement p.placement).isOk = false := by
      rw [hpl, (normalizePlacement_rejects pl).1 ha hb]
      rfl
    have hnerr := normalize_err_of_placement_err urlOk p hperr
    exact ⟨hnerr, appendBlockRun_noNetwork_of_normalize_err urlOk ids o dws p hnerr⟩
  · intro hidx hor
    have hperr : (normalizePlacement p.placement).isOk = false := by
      rw [hpl]
      exact (normalizePlacement_rejects pl).2 hidx hor
    have hnerr := normalize_err_of_placement_err urlOk p hperr
    exact ⟨hnerr, appendBlockRun_noNetwork_of_normalize_err urlOk ids o dws p hnerr⟩

/-- C9 witness: a concrete request with both references given is rejected
with an empty network trace. -/
theorem placementExclusivity_preNetwork_witness :
    ({ baseIn with placement := some { afterBlockId := some "a", beforeBlockId := some "b" }
       : AppendBlockInput }.placement
      = some { afterBlockId := some "a", beforeBlockId := some "b" })
    ∧ (normalizeAppendBlockInput (fun _ => true)
        { baseIn with
          placement := some { afterBlockId := some "a", beforeBlockId := some "b" } }).isOk
        = false
    ∧ (appendBlockRun (fun _ => true) idsEx (okOracle none) none
        { baseIn with
          placement := some { afterBlockId := some "a", beforeBlockId := some "b" } }).2
        = [] := by
  have h := placementExclusivity_preNetwork (fun _ => true) idsEx (okOracle none) none
    { baseIn with placement := some { afterBlockId := some "a", beforeBlockId := some "b" } }
    { afterBlockId := some "a", beforeBlockId := some "b" } rfl
  exact ⟨rfl, (h.1 (by decide) (by decide)).1, (h.1 (by decide) (by decide)).2⟩

/-- A legacy alias name is never a canonical name. -/
theorem legacy_not_canonical (k : String) (l : LegacyType)
    (hl : legacyTypeOfString k = some l) : canonicalTypeOfString k = none := by
  unfold legacyTypeOfString at hl
  split_ifs at hl with h1 h2 h3 h4 h5 h6 <;> (subst_vars; decide)

/-- Type normalization through a legacy alias. -/
theorem normalizeBlockTypeInput_legacy (t : String) (l : LegacyType)
    (hl : legacyTypeOfString (jsToLower (jsTrim t)) = some l) :
    normalizeBlockTypeInput t
      = .ok { type := canonicalOfLegacy l, legacyType := some l,
              headingLevelFromAlias := headingLevelFromAlias l,
              listStyleFromAlias := listStyleFromAlias l } := by
  unfold normalizeBlockTypeInput
  simp only [legacy_not_canonical _ _ hl, hl]

/-- C10: for the legacy list aliases the alias-derived style always wins
over an explicitly supplied style field and the call still succeeds when
they contradict (final conjunct: a concrete contradictory request
succeeds); for the heading aliases an explicitly supplied level field wins
over the alias-derived level, which only applies when no level is given —
the opposite precedence. -/
theorem aliasPrecedence_opposite (urlOk : String → Bool) (p : AppendBlockInput)
    (n : NormalizedInput) (l : LegacyType)
    (hl : legacyTypeOfString (jsToLower (jsTrim p.type)) = some l)
    (hn : normalizeAppendBlockInput urlOk p = .ok n) :
    (∀ s, listStyleFromAlias l = some s → n.listStyle = s)
  ∧ (∀ lvl : Int, p.level = some lvl → n.headingLevel = max 1 (min 6 lvl))
  ∧ (∀ lv : Int, headingLevelFromAlias l = some lv → p.level = none →
      n.headingLevel = lv)
  ∧ ((normalizeAppendBlockInput (fun _ => true)
      { baseIn with type := "bulleted_list", style := some .todo }).map
      (fun m => (m.listStyle, m.type, m.legacyType))
      = .ok (.bulleted, .list, some .bulleted_list)) := by
  obtain ⟨ti, pl, hti, hplm, hv, hty, hsrc, hname, hmime, hls, hhl, hlg, hstrict, hplc⟩ :=
    normalize_ok_inv urlOk p n hn
  rw [normalizeBlockTypeInput_legacy p.type l hl] at hti
  injection hti with hti
  subst hti
  refine ⟨?_, ?_, ?_, by decide⟩
  · intro s hs
    rw [hls]
    simp [hs]
  · intro lvl hlev
    rw [hhl, hlev]
    simp
  · intro lv hlv hnone
    rw [hhl, hnone]
    cases l <;> simp_all [headingLevelFromAlias] <;> omega

/-- C10 witness: a numbered_list request with a contradictory explicit style
normalizes to the alias style. -/
theorem aliasPrecedence_opposite_witness :
    legacyTypeOfString (jsToLower (jsTrim "numbered_list")) = some .numbered_list
    ∧ (normalizeAppendBlockInput (fun _ => true)
        { baseIn with type := "numbered_list", style := some .todo }).map (·.listStyle)
      = .ok .numbered := by
  refine ⟨by decide, ?_⟩
  cases hn : normalizeAppendBlockInput (fun _ => true)
      { baseIn with type := "numbered_list", style := some .todo } with
  | error e =>
    have hok : (normalizeAppendBlockInput (fun _ => true)
        { baseIn with type := "numbered_list", style := some .todo }).isOk = true := by decide
    rw [hn] at hok
    cases hok
  | ok n =>
    simp only [Except.map]
    rw [(aliasPrecedence_opposite (fun _ => true) _ n .numbered_list (by decide) hn).1
      .numbered rfl]

/-- C6: the transport load treats the DOC_NOT_FOUND server response as a
success resolving to the empty snapshot, while every other server-reported
load error and the ack timeout fail the load; consequently read_doc answers
successfully (docExists false) on a nonexistent document, and the create
flow proceeds through its workspace-index load on a fresh workspace
document. -/
theorem loadNotFound_isSuccess (msg name : String) (o : WireOracle)
    (ws docId : String) (ids : Nat → String) (title content : Option String) :
    (loadDoc (.ackErr "DOC_NOT_FOUND" msg) = .ok none)
  ∧ (name ≠ "DOC_NOT_FOUND" → loadDoc (.ackErr name msg) = .error (.loadFailed msg))
  ∧ (loadDoc .timeout = .error .loadTimeout)
  ∧ (o.connectAck = .ok () → o.joinAck = .ok () →
      o.loadAck docId = .ackErr "DOC_NOT_FOUND" msg → ws ≠ "" →
      (readDocRun o none (some ws) docId).1
        = .ok { docId := docId, title := none, docExists := false, blockCount := 0,
                blocks := [], plainText := "" })
  ∧ (o.connectAck = .ok () → o.joinAck = .ok () →
      o.loadAck ws = .ackErr "DOC_NOT_FOUND" msg → ws ≠ "" →
      (∀ dd, (o.pushAck dd).isOk = true) →
      (createDocRun ids o none (some ws) title content).1.isOk = true) := by
  refine ⟨by simp [loadDoc], ?_, rfl, ?_, ?_⟩
  · intro h
    simp only [loadDoc]
    rw [if_neg h]
  · intro hc hj hl hws
    unfold readDocRun
    rw [show truthy (some ws) = some ws from by simp [truthy, hws]]
    simp [seqN, callNet, hc, hj, hl, loadDoc, Option.orElse]
  · intro hc hj hl hws hpush
    unfold createDocRun
    rw [show truthy (some ws) = some ws from by simp [truthy, hws]]
    simp only [Option.orElse, seqN, callNet, hc, hj]
    cases hp0 : o.pushAck (ids 0) with
    | error e =>
      have := hpush (ids 0)
      rw [hp0] at this
      cases this
    | ok t0 =>
      simp only [hp0, hl, loadDoc, if_pos rfl, seqN]
      cases hp1 : o.pushAck ws with
      | error e =>
        have := hpush ws
        rw [hp1] at this
        cases this
      | ok t1 =>
        simp only [hp1, seqN]
        rfl

/-- C6 witness: the load, read and create conclusions at a concrete
not-found oracle. -/
theorem loadNotFound_isSuccess_witness :
    ("INTERNAL" : String) ≠ "DOC_NOT_FOUND"
    ∧ loadDoc (.ackErr "INTERNAL" "doc not found") = .error (.loadFailed "doc not found")
    ∧ (readDocRun notFoundOracle none (some "w1") "d1").1
        = .ok { docId := "d1", title := none, docExists := false, blockCount := 0,
                blocks := [], plainText := "" }
    ∧ (createDocRun idsEx notFoundOracle none (some "w1") (some "T") none).1.isOk
        = true := by
  have h := loadNotFound_isSuccess "doc not found" "INTERNAL" notFoundOracle
    "w1" "d1" idsEx (some "T") none
  refine ⟨by decide, h.2.1 (by decide), ?_, ?_⟩
  · exact h.2.2.2.1 rfl rfl rfl (by decide)
  · exact h.2.2.2.2 rfl rfl rfl (by decide) (fun dd => rfl)

/-- Initial-segment relation: the trace of a run cut at its failure point
relative to the full successful call sequence. -/
def isInitSeg {α : Type} (tr full : List α) : Prop := tr = full.take tr.length

/-- C5 (amended): append_block issues at most one push and only as its very
last network call; create_doc runs (a prefix of) connect, join, push of the
new content doc, load of the workspace index, push of the index — two
pushes with a fallible load between them, so the push is not last;
delete_doc runs (a prefix of) connect, join, index load, index push, then
the fire-and-forget delete notice after the push; read_doc never pushes. -/
theorem pushDiscipline_perOperation (urlOk : String → Bool) (ids : Nat → String)
    (o : WireOracle) (dws ws t c wsid : Option String) (p : AppendBlockInput)
    (d : String) :
    ((appendBlockRun urlOk ids o dws p).2.dropLast.all (fun call => !call.isPush) = true)
  ∧ isInitSeg (createDocRun ids o dws ws t c).2
      [.connect, .join, .pushCall (ids 0),
       .loadCall (((truthy ws).orElse (fun _ => truthy dws)).getD ""),
       .pushCall (((truthy ws).orElse (fun _ => truthy dws)).getD "")]
  ∧ isInitSeg (deleteDocRun o dws wsid d).2
      [.connect, .join,
       .loadCall (((truthy wsid).orElse (fun _ => truthy dws)).getD ""),
       .pushCall (((truthy wsid).orElse (fun _ => truthy dws)).getD ""),
       .deleteCall d]
  ∧ isInitSeg (readDocRun o dws wsid d).2 [.connect, .join, .loadCall d] := by
  refine ⟨?_, ?_, ?_, ?_⟩
  · unfold appendBlockRun
    split
    · simp
    · rename_i n hn
      split
      · simp
      · cases hc : o.connectAck with
        | error e => simp [seqN, callNet, hc, NetCall.isPush]
        | ok u =>
          cases hj : o.joinAck with
          | error e => simp [seqN, callNet, hc, hj, NetCall.isPush]
          | ok u2 =>
            cases hl : loadDoc (o.loadAck n.docId) with
            | error e => simp [seqN, callNet, hc, hj, hl, NetCall.isPush]
            | ok snap =>
              rcases hm : appendBlockMem ids (snap.getD []) n with ⟨res, b⟩
              cases res with
              | error e => simp [seqN, callNet, hc, hj, hl, hm, NetCall.isPush]
              | ok out =>
                cases hp : o.pushAck n.docId with
                | error e => simp [seqN, callNet, hc, hj, hl, hm, hp, NetCall.isPush]
                | ok ts => simp [seqN, callNet, hc, hj, hl, hm, hp, NetCall.isPush]
  · unfold createDocRun
    split
    · simp [isInitSeg]
    · rename_i wsv h
      rw [h]
      cases hc : o.connectAck with
      | error e => simp [seqN, callNet, hc, isInitSeg]
      | ok u =>
        cases hj : o.joinAck with
        | error e => simp [seqN, callNet, hc, hj, isInitSeg]
        | ok u2 =>
          cases hp0 : o.pushAck (ids 0) with
          | error e => simp [seqN, callNet, hc, hj, hp0, isInitSeg]
          | ok t0 =>
            cases hl : loadDoc (o.loadAck wsv) with
            | error e => simp [seqN, callNet, hc, hj, hp0, hl, isInitSeg]
            | ok snap =>
              cases hp1 : o.pushAck wsv with
              | error e => simp [seqN, callNet, hc, hj, hp0, hl, hp1, isInitSeg]
              | ok t1 => simp [seqN, callNet, hc, hj, hp0, hl, hp1, isInitSeg]
  · unfold deleteDocRun
    split
    · simp [isInitSeg]
    · rename_i wsv h
      rw [h]
      cases hc : o.connectAck with
      | error e => simp [seqN, callNet, hc, isInitSeg]
      | ok u =>
        cases hj : o.joinAck with
        | error e => simp [seqN, callNet, hc, hj, isInitSeg]
        | ok u2 =>
          cases hl : loadDoc (o.loadAck wsv) with
          | error e => simp [seqN, callNet, hc, hj, hl, isInitSeg]
          | ok snap =>
            cases hp1 : o.pushAck wsv with
            | error e => simp [seqN, callNet, hc, hj, hl, hp1, isInitSeg]
            | ok t1 => simp [seqN, callNet, hc, hj, hl, hp1, isInitSeg]
  · unfold readDocRun
    split
    · simp [isInitSeg]
    · rename_i wsv h
      cases hc : o.connectAck with
      | error e => simp [seqN, callNet, hc, isInitSeg]
      | ok u =>
        cases hj : o.joinAck with
        | error e => simp [seqN, callNet, hc, hj, isInitSeg]
        | ok u2 =>
          cases hl : loadDoc (o.loadAck d) with
          | error e => simp [seqN, callNet, hc, hj, hl, isInitSeg]
          | ok snap =>
            cases snap with
            | none => simp [seqN, callNet, hc, hj, hl, isInitSeg]
            | some blocks => simp [seqN, callNet, hc, hj, hl, isInitSeg]

/-- C5 counterexample: create_doc with every exchange succeeding issues two
pushes, and create_doc whose workspace-index load fails has already issued
a push although the operation fails — the claim that every operation
performs its single push as the last network step is false. -/
theorem createDoc_twoPushes_counterexample :
    (((createDocRun idsEx (okOracle none) none (some "w1") (some "T") none).2.filter
        (fun call => call.isPush)).length = 2)
  ∧ ((createDocRun idsEx (loadFailOracle "w1") none (some "w1") (some "T") none).1.isOk
      = false)
  ∧ ((createDocRun idsEx (loadFailOracle "w1") none (some "w1") (some "T") none).2.any
      (fun call => call.isPush) = true) := by
  exact ⟨by decide, by decide, by decide⟩

/-- A successful ensureSurfaceBlock either left the map unchanged (surface
existed) or created a block that the returned id looks up with surface
flavour. -/
theorem ensureSurfaceBlockS_ok_cases (ids : Nat → String) (k : Nat) (blocks : Blocks)
    (sid : String) (b : Blocks) (k' : Nat)
    (h : ensureSurfaceBlockS ids k blocks = (.ok sid, b, k')) :
    b = blocks ∨ (mapGet b sid).map Block.flavour = some "affine:surface" := by
  unfold ensureSurfaceBlockS at h
  split at h
  · simp only [Prod.mk.injEq] at h
    exact Or.inl h.2.1.symm
  · split at h
    · simp at h
    · rename_i pageId hpg
      split at h
      · simp at h
      · rename_i page hpage
        simp only [Prod.mk.injEq, Except.ok.injEq] at h
        obtain ⟨hsid, hb, -⟩ := h
        subst hsid
        subst hb
        by_cases hpe : pageId = ids k
        · subst hpe
          rw [mapGet_mapSet_self] at hpage ⊢
          injection hpage with hpage
          subst hpage
          exact Or.inr rfl
        · rw [mapGet_mapSet_other _ pageId (ids k) _ hpe, mapGet_mapSet_self]
          exact Or.inr rfl

/-- A successful ensureNoteBlock either left the map unchanged (note
existed) or created a block that the returned id looks up with note
flavour. -/
theorem ensureNoteBlockS_ok_cases (ids : Nat → String) (k : Nat) (blocks : Blocks)
    (nid : String) (b : Blocks) (k' : Nat)
    (h : ensureNoteBlockS ids k blocks = (.ok nid, b, k')) :
    b = blocks ∨ (mapGet b nid).map Block.flavour = some "affine:note" := by
  unfold ensureNoteBlockS at h
  split at h
  · simp only [Prod.mk.injEq] at h
    exact Or.inl h.2.1.symm
  · split at h
    · simp at h
    · rename_i pageId hpg
      split at h
      · simp at h
      · rename_i page hpage
        simp only [Prod.mk.injEq, Except.ok.injEq] at h
        obtain ⟨hnid, hb, -⟩ := h
        subst hnid
        subst hb
        by_cases hpe : pageId = ids k
        · subst hpe
          rw [mapGet_mapSet_self] at hpage ⊢
          injection hpage with hpage
          subst hpage
          exact Or.inr rfl
        · rw [mapGet_mapSet_other _ pageId (ids k) _ hpe, mapGet_mapSet_self]
          exact Or.inr rfl

/-- A successful parent resolution either left the map unchanged or created
the implicit surface (for frame/edgeless_text) or the implicit note (for
the remaining kinds), whose flavour the resolved parent id looks up. -/
theorem resolveParentPhase_ok_cases (ids : Nat → String) (k : Nat) (blocks : Blocks)
    (n : NormalizedInput) (pid : String) (mode : InsMode) (b : Blocks) (k1 : Nat)
    (h : resolveParentPhase ids k blocks n = (.ok (pid, mode), b, k1)) :
    b = blocks
    ∨ ((mapGet b pid).map Block.flavour = some "affine:surface"
        ∧ (n.type = .frame ∨ n.type = .edgeless_text))
    ∨ ((mapGet b pid).map Block.flavour = some "affine:note"
        ∧ ¬(n.type = .frame ∨ n.type = .edgeless_text) ∧ n.type ≠ .note) := by
  unfold resolveParentPhase at h
  split at h
  · split at h
    · simp at h
    · split at h
      · simp at h
      · simp only [Prod.mk.injEq] at h
        exact Or.inl h.2.1.symm
  · split at h
    · split at h
      · simp at h
      · split at h
        · simp at h
        · simp only [Prod.mk.injEq] at h
          exact Or.inl h.2.1.symm
    · split at h
      · split at h
        · simp only [Prod.mk.injEq] at h
          exact Or.inl h.2.1.symm
        · simp only [Prod.mk.injEq] at h
          exact Or.inl h.2.1.symm
      · split_ifs at h with hfr hnt
        · split at h
          · simp at h
          · rename_i sid bb kk hsurf
            simp only [Prod.mk.injEq, Except.ok.injEq] at h
            obtain ⟨⟨hpid, -⟩, hb, -⟩ := h
            subst hpid
            subst hb
            rcases ensureSurfaceBlockS_ok_cases ids k blocks sid bb kk hsurf with hu | hf
            · exact Or.inl hu
            · exact Or.inr (Or.inl ⟨hf, hfr⟩)
        · split at h
          · simp at h
          · simp only [Prod.mk.injEq] at h
            exact Or.inl h.2.1.symm
        · split at h
          · simp at h
          · rename_i nid bb kk hnote
            simp only [Prod.mk.injEq, Except.ok.injEq] at h
            obtain ⟨⟨hpid, -⟩, hb, -⟩ := h
            subst hpid
            subst hb
            rcases ensureNoteBlockS_ok_cases ids k blocks nid bb kk hnote with hu | hf
            · exact Or.inl hu
            · exact Or.inr (Or.inr ⟨hf, hfr, hnt⟩)

/-- The strict containment check errors exactly on the bad combinations,
and its errors are containment errors. -/
theorem containmentCheck_isContErr (t : BlockType) (f : String) :
    isContErr (containmentCheck true t f) = badContainment t f := by
  unfold containmentCheck badContainment isContErr
  split_ifs with h1 h2 h3 h4 <;> simp_all [VErr.isContainment]

/-- insertIndexFor never fails with a containment error. -/
theorem insertIndexFor_err_not_containment (strict : Bool) (mode : InsMode)
    (cs : List ChildEntry) (e : VErr) (h : insertIndexFor strict mode cs = .error e) :
    e.isContainment = false := by
  unfold insertIndexFor at h
  split at h
  · cases h
  · split at h
    · injection h with h
      subst h
      rfl
    · cases h
  · split at h
    · injection h with h
      subst h
      rfl
    · cases h
  · split at h
    · injection h with h
      subst h
      rfl
    · cases h

/-- C1: with strict mode on, once the parent of an append has been resolved
(resolveParentPhase succeeded and the parent id looks up block P), the
insert-context resolution fails with a containment error exactly when the
resolved parent is a page and the kind is not note, or the parent is a
surface and the kind is not frame/edgeless_text, or the kind is note and
the parent is not a page, or the kind is frame/edgeless_text and the parent
is not a surface; and on such a failure the whole in-memory append stops
with that error before any block is constructed or linked, leaving the
blocks map exactly as it was. -/
theorem strictContainment_iff_and_leavesMapUnchanged
    (ids : Nat → String) (blocks : Blocks) (n : NormalizedInput)
    (pid : String) (mode : InsMode) (blocks1 : Blocks) (k1 : Nat) (P : Block)
    (hstrict : n.strict = true)
    (hA : resolveParentPhase ids 0 blocks n = (.ok (pid, mode), blocks1, k1))
    (hP : mapGet blocks1 pid = some P) :
    (isContErr (resolveInsertContext ids 0 blocks n).1 = badContainment n.type P.flavour)
    ∧ (badContainment n.type P.flavour = true →
        (resolveInsertContext ids 0 blocks n).2.1 = blocks
        ∧ isContErr (appendBlockMem ids blocks n).1 = true
        ∧ (appendBlockMem ids blocks n).2 = blocks) := by
  have hl := containmentCheck_isContErr n.type P.flavour
  cases hcc : containmentCheck true n.type P.flavour with
  | error e =>
    rw [hcc] at hl
    have hrw : resolveInsertContext ids 0 blocks n = (.error e, blocks1, k1) := by
      unfold resolveInsertContext
      rw [hA]
      simp only [findBlockById, hP, hstrict, hcc]
    have hbads : VErr.isContainment e = badContainment n.type P.flavour := hl
    have hunch : badContainment n.type P.flavour = true → blocks1 = blocks := by
      intro hbad
      rcases resolveParentPhase_ok_cases ids 0 blocks n pid mode blocks1 k1 hA with
        hu | ⟨hf, hty⟩ | ⟨hf, hty1, hty2⟩
      · exact hu
      · exfalso
        rw [hP] at hf
        simp only [Option.map_some'] at hf
        injection hf with hf
        rw [hf] at hbad
        rcases hty with h | h <;> rw [h] at hbad <;> exact absurd hbad (by decide)
      · exfalso
        rw [hP] at hf
        simp only [Option.map_some'] at hf
        injection hf with hf
        rw [hf] at hbad
        have hf1 : n.type ≠ .frame := fun hc => hty1 (Or.inl hc)
        have hf2 : n.type ≠ .edgeless_text := fun hc => hty1 (Or.inr hc)
        simp +decide [badContainment, hf1, hf2, hty2] at hbad
    constructor
    · rw [hrw]
      exact hbads
    · intro hbad
      have hu := hunch hbad
      refine ⟨by rw [hrw]; exact hu, ?_, ?_⟩
      · unfold appendBlockMem
        simp only [hrw]
        show VErr.isContainment e = true
        rw [hbads, hbad]
      · unfold appendBlockMem
        simp only [hrw]
        exact hu
  | ok u =>
    cases u
    rw [hcc] at hl
    have hbadf : badContainment n.type P.flavour = false := hl.symm
    rw [hbadf]
    constructor
    · unfold resolveInsertContext
      rw [hA]
      simp only [findBlockById, hP, hstrict, hcc]
      cases hii : insertIndexFor true mode (P.children.getD []) with
      | error e2 =>
        simp only [hii]
        exact insertIndexFor_err_not_containment true mode _ e2 hii
      | ok i =>
        simp only [hii]
        rfl
    · intro hbad
      cases hbad

/-- C1 witness: the theorem at a concrete document (explicit parent p1, a
page) and a paragraph request, where the containment violation holds and
the map is left unchanged. -/
theorem strictContainment_witness :
    ({ baseN with placement := some { parentId := some "p1" } } : NormalizedInput).strict
      = true
    ∧ resolveParentPhase idsEx 0 docEx
        { baseN with placement := some { parentId := some "p1" } }
        = (.ok ("p1", .append), docEx, 0)
    ∧ mapGet docEx "p1" = some pageEx
    ∧ isContErr (resolveInsertContext idsEx 0 docEx
        { baseN with placement := some { parentId := some "p1" } }).1
        = badContainment .paragraph pageEx.flavour
    ∧ (appendBlockMem idsEx docEx
        { baseN with placement := some { parentId := some "p1" } }).2 = docEx := by
  have h := strictContainment_iff_and_leavesMapUnchanged idsEx docEx
    { baseN with placement := some { parentId := some "p1" } }
    "p1" .append docEx 0 pageEx rfl (by rfl) (by rfl)
  exact ⟨rfl, by rfl, by rfl, h.1, (h.2 (by decide)).2.2⟩

/-- Children count of a block of the map (empty when the block or its
children array is absent). -/
def childLenOf (blocks : Blocks) (pid : String) : Nat :=
  match mapGet blocks pid with
  | some P => (P.children.getD []).length
  | none => 0

/-- Parent resolution for an explicit non-empty parentId placement. -/
theorem resolveParentPhase_explicit (ids : Nat → String) (k : Nat) (blocks : Blocks)
    (n : NormalizedInput) (pid : String) (idx : Option Int)
    (hpl : n.placement = some { parentId := some pid, afterBlockId := none,
                                beforeBlockId := none, index := idx })
    (hpid : pid ≠ "") :
    resolveParentPhase ids k blocks n =
      (.ok (pid, match idx with | some i => .byIndex i | none => .append), blocks, k) := by
  unfold resolveParentPhase
  simp only [hpl, Option.some_bind, truthy]
  rw [if_neg hpid]
  cases idx <;> rfl

/-- Appending at an explicit index equal to the children count resolves to
the same index as appending with no index. -/
theorem insertIndexFor_byIndex_len (s : Bool) (cs : List ChildEntry) :
    insertIndexFor s (.byIndex (cs.length : Int)) cs = .ok cs.length := by
  simp only [insertIndexFor]
  rw [if_neg (by omega)]
  congr 1
  omega

/-- In non-strict mode an index at or past the children count is clamped to
the count. -/
theorem insertIndexFor_byIndex_nonstrict (cs : List ChildEntry) (i : Int)
    (hle : (cs.length : Int) ≤ i) :
    insertIndexFor false (.byIndex i) cs = .ok cs.length := by
  simp only [insertIndexFor]
  rw [if_neg (by simp)]
  congr 1
  omega

/-- In strict mode an index past the children count is rejected. -/
theorem insertIndexFor_byIndex_strict_oob (cs : List ChildEntry) (i : Int)
    (hlt : (cs.length : Int) < i) :
    insertIndexFor true (.byIndex i) cs = .error (.indexOutOfRange i cs.length) := by
  simp only [insertIndexFor]
  rw [if_pos ⟨hlt, trivial⟩]

/-- The in-memory append is determined by the insert-context resolution:
two requests differing only in placement but resolving identically append
identically. -/
theorem appendBlockMem_congr (ids : Nat → String) (blocks : Blocks)
    (n : NormalizedInput) (pl1 pl2 : Option AppendPlacement)
    (hres : resolveInsertContext ids 0 blocks { n with placement := pl1 }
          = resolveInsertContext ids 0 blocks { n with placement := pl2 }) :
    appendBlockMem ids blocks { n with placement := pl1 }
      = appendBlockMem ids blocks { n with placement := pl2 } := by
  unfold appendBlockMem
  rw [hres]
  rfl

/-- C3: appending with an explicit placement index equal to the target
parent children count N behaves exactly like appending with no index at all
(end of list), whatever the document and request; in strict mode an index
greater than N makes the operation fail; with strict off such an index is
clamped to N, making the run identical to the no-index append-at-end run. -/
theorem explicitIndex_semantics (ids : Nat → String) (blocks : Blocks)
    (n : NormalizedInput) (pid : String) (i : Int) :
    (appendBlockMem ids blocks
        { n with
          placement :=
            some { parentId := some pid, index := some (childLenOf blocks pid : Int) } }
      = appendBlockMem ids blocks { n with placement := some { parentId := some pid } })
  ∧ (n.strict = true → pid ≠ "" → (childLenOf blocks pid : Int) < i →
      (appendBlockMem ids blocks
        { n with placement := some { parentId := some pid, index := some i } }).1.isOk
        = false)
  ∧ (n.strict = false → (childLenOf blocks pid : Int) ≤ i →
      appendBlockMem ids blocks
        { n with placement := some { parentId := some pid, index := some i } }
      = appendBlockMem ids blocks { n with placement := some { parentId := some pid } }) := by
  refine ⟨?_, ?_, ?_⟩
  · by_cases hpid : pid = ""
    · subst hpid
      apply appendBlockMem_congr
      rfl
    · apply appendBlockMem_congr
      unfold resolveInsertContext
      rw [resolveParentPhase_explicit ids 0 blocks _ pid
            (some (childLenOf blocks pid : Int)) rfl hpid,
          resolveParentPhase_explicit ids 0 blocks _ pid none rfl hpid]
      simp only [findBlockById]
      cases hm : mapGet blocks pid with
      | none => rfl
      | some P =>
        simp only [hm]
        cases hcc : containmentCheck n.strict n.type P.flavour with
        | error e => simp only [hcc]
        | ok u =>
          simp only [hcc]
          have hN : (childLenOf blocks pid : Int) = ((P.children.getD []).length : Int) := by
            unfold childLenOf
            rw [hm]
          rw [hN, insertIndexFor_byIndex_len]
          rfl
  · intro hstrict hpid hlt
    unfold appendBlockMem resolveInsertContext
    rw [resolveParentPhase_explicit ids 0 blocks _ pid (some i) rfl hpid]
    simp only [findBlockById]
    cases hm : mapGet blocks pid with
    | none => rfl
    | some P =>
      simp only [hm]
      cases hcc : containmentCheck n.strict n.type P.flavour with
      | error e => simp only [hcc]; rfl
      | ok u =>
        simp only [hcc, hstrict]
        have hN : (childLenOf blocks pid : Int) = ((P.children.getD []).length : Int) := by
          unfold childLenOf
          rw [hm]
        rw [insertIndexFor_byIndex_strict_oob (P.children.getD []) i (by omega)]
        rfl
  · intro hstrict hle
    by_cases hpid : pid = ""
    · subst hpid
      apply appendBlockMem_congr
      rfl
    · apply appendBlockMem_congr
      unfold resolveInsertContext
      rw [resolveParentPhase_explicit ids 0 blocks _ pid (some i) rfl hpid,
          resolveParentPhase_explicit ids 0 blocks _ pid none rfl hpid]
      simp only [findBlockById]
      cases hm : mapGet blocks pid with
      | none => rfl
      | some P =>
        simp only [hm]
        cases hcc : containmentCheck n.strict n.type P.flavour with
        | error e => simp only [hcc]
        | ok u =>
          simp only [hcc, hstrict]
          have hN : (childLenOf blocks pid : Int) = ((P.children.getD []).length : Int) := by
            unfold childLenOf
            rw [hm]
          rw [insertIndexFor_byIndex_nonstrict (P.children.getD []) i (by omega)]
          rfl

/-- C3 witness: on the fixture document (note n1 has one child), index 1
equals no-index append, and index 5 fails in strict mode. -/
theorem explicitIndex_semantics_witness :
    (appendBlockMem idsEx docEx
        { baseN with placement := some { parentId := some "n1", index := some 1 } }
      = appendBlockMem idsEx docEx
          { baseN with placement := some { parentId := some "n1" } })
    ∧ baseN.strict = true
    ∧ ("n1" : String) ≠ ""
    ∧ ((childLenOf docEx "n1" : Int) < 5)
    ∧ (appendBlockMem idsEx docEx
        { baseN with placement := some { parentId := some "n1", index := some 5 } }).1.isOk
      = false := by
  have h := explicitIndex_semantics idsEx docEx baseN "n1" 5
  exact ⟨h.1, rfl, by decide, by decide, h.2.1 rfl (by decide) (by decide)⟩

/-- The reference designated by a placement, mirroring the if-chain of
resolveInsertContext: afterBlockId (direction true) wins over beforeBlockId
(direction false), truthiness included. -/
def placementRef (pl : AppendPlacement) : Option (Bool × String) :=
  match truthy pl.afterBlockId with
  | some r => some (true, r)
  | none =>
    match truthy pl.beforeBlockId with
    | some r => some (false, r)
    | none => none

/-- Parent resolution when the placement reference block is absent. -/
theorem resolveParentPhase_ref_notFound (ids : Nat → String) (k : Nat)
    (blocks : Blocks) (n : NormalizedInput) (pl : AppendPlacement) (dir : Bool)
    (r : String) (hpl : n.placement = some pl) (href : placementRef pl = some (dir, r))
    (hmr : mapGet blocks r = none) :
    resolveParentPhase ids k blocks n = (.error (.refNotFound dir r), blocks, k) := by
  unfold placementRef at href
  unfold resolveParentPhase
  cases haft : truthy pl.afterBlockId with
  | some a =>
    rw [haft] at href
    injection href with href
    simp only [Prod.mk.injEq] at href
    obtain ⟨hdir, hr⟩ := href
    subst hdir
    subst hr
    simp only [hpl, Option.some_bind, haft, findBlockById, hmr]
  | none =>
    rw [haft] at href
    cases hbef : truthy pl.beforeBlockId with
    | none =>
      rw [hbef] at href
      cases href
    | some b =>
      rw [hbef] at href
      injection href with href
      simp only [Prod.mk.injEq] at href
      obtain ⟨hdir, hr⟩ := href
      subst hdir
      subst hr
      simp only [hpl, Option.some_bind, haft, hbef, findBlockById, hmr]

/-- Parent resolution when the reference block exists but has no (truthy)
parent. -/
theorem resolveParentPhase_ref_noParent (ids : Nat → String) (k : Nat)
    (blocks : Blocks) (n : NormalizedInput) (pl : AppendPlacement) (dir : Bool)
    (r : String) (rb : Block) (hpl : n.placement = some pl)
    (href : placementRef pl = some (dir, r))
    (hmr : mapGet blocks r = some rb) (hpar : truthy rb.parent = none) :
    resolveParentPhase ids k blocks n = (.error (.refNoParent r), blocks, k) := by
  unfold placementRef at href
  unfold resolveParentPhase
  cases haft : truthy pl.afterBlockId with
  | some a =>
    rw [haft] at href
    injection href with href
    simp only [Prod.mk.injEq] at href
    obtain ⟨hdir, hr⟩ := href
    subst hdir
    subst hr
    simp only [hpl, Option.some_bind, haft, findBlockById, hmr, hpar]
  | none =>
    rw [haft] at href
    cases hbef : truthy pl.beforeBlockId with
    | none =>
      rw [hbef] at href
      cases href
    | some b =>
      rw [hbef] at href
      injection href with href
      simp only [Prod.mk.injEq] at href
      obtain ⟨hdir, hr⟩ := href
      subst hdir
      subst hr
      simp only [hpl, Option.some_bind, haft, hbef, findBlockById, hmr, hpar]

/-- Parent resolution when the reference block exists and has a parent: the
target parent is that parent, in after or before mode. -/
theorem resolveParentPhase_ref_ok (ids : Nat → String) (k : Nat)
    (blocks : Blocks) (n : NormalizedInput) (pl : AppendPlacement) (dir : Bool)
    (r pid : String) (rb : Block) (hpl : n.placement = some pl)
    (href : placementRef pl = some (dir, r))
    (hmr : mapGet blocks r = some rb) (hpar : truthy rb.parent = some pid) :
    resolveParentPhase ids k blocks n
      = (.ok (pid, if dir then .after r else .before r), blocks, k) := by
  unfold placementRef at href
  unfold resolveParentPhase
  cases haft : truthy pl.afterBlockId with
  | some a =>
    rw [haft] at href
    injection href with href
    simp only [Prod.mk.injEq] at href
    obtain ⟨hdir, hr⟩ := href
    subst hdir
    subst hr
    simp only [hpl, Option.some_bind, haft, findBlockById, hmr, hpar, if_true]
  | none =>
    rw [haft] at href
    cases hbef : truthy pl.beforeBlockId with
    | none =>
      rw [hbef] at href
      cases href
    | some b =>
      rw [hbef] at href
      injection href with href
      simp only [Prod.mk.injEq] at href
      obtain ⟨hdir, hr⟩ := href
      subst hdir
      subst hr
      simp only [hpl, Option.some_bind, haft, hbef, findBlockById, hmr, hpar,
                 Bool.false_eq_true, if_false]

/-- Containment checking errors are containment errors. -/
theorem containmentCheck_err_isCont (t : BlockType) (f : String) (e : VErr)
    (h : containmentCheck true t f = .error e) : e.isContainment = true := by
  unfold containmentCheck at h
  split_ifs at h <;> (injection h with h; subst h; rfl)

/-- The containment check passes when the bad-combination predicate does
not hold. -/
theorem containmentCheck_ok_of_not_bad (s : Bool) (t : BlockType) (f : String)
    (h : badContainment t f = false) : containmentCheck s t f = .ok () := by
  cases s with
  | false => rfl
  | true =>
    cases hc : containmentCheck true t f with
    | ok u => cases u; rfl
    | error e =>
      have hl := containmentCheck_isContErr t f
      rw [hc, h] at hl
      simp only [isContErr] at hl
      have := containmentCheck_err_isCont t f e hc
      rw [this] at hl
      cases hl

/-- The fresh block id of createBlock is the first drawn id. -/
theorem createBlock_blockId (ids : Nat → String) (k : Nat) (pid : String)
    (n : NormalizedInput) : (createBlock ids k pid n).blockId = ids k := by
  unfold createBlock
  cases n.type <;> rfl

set_option maxHeartbeats 1000000 in
/-- C2 (amended): for an append_block request whose placement names a
reference block R through afterBlockId (direction true) or beforeBlockId
(direction false): if R is absent the operation fails with its not-found
error and the map is unchanged; if R has no parent it fails likewise; if R
has parent P but is not listed among the children of P the operation fails;
and if R is listed at sibling index i — provided strict containment permits
the kind under the flavour of P (the proviso the original claim lacks) and
the generated block id is fresh — the append succeeds and links the new
block into the children of P exactly at index i+1 for after, i for
before. -/
theorem refPlacement_resolution (ids : Nat → String) (blocks : Blocks)
    (n : NormalizedInput) (pl : AppendPlacement) (dir : Bool) (r : String)
    (hpl : n.placement = some pl)
    (href : placementRef pl = some (dir, r)) :
    (mapGet blocks r = none →
      (appendBlockMem ids blocks n).1 = .error (.refNotFound dir r)
      ∧ (appendBlockMem ids blocks n).2 = blocks)
  ∧ (∀ rb, mapGet blocks r = some rb → truthy rb.parent = none →
      (appendBlockMem ids blocks n).1 = .error (.refNoParent r)
      ∧ (appendBlockMem ids blocks n).2 = blocks)
  ∧ (∀ rb pid P cs, mapGet blocks r = some rb → truthy rb.parent = some pid →
      mapGet blocks pid = some P → P.children = some cs → indexOfChild cs r < 0 →
      (appendBlockMem ids blocks n).1.isOk = false)
  ∧ (∀ rb pid P cs (i : Nat), mapGet blocks r = some rb →
      truthy rb.parent = some pid →
      mapGet blocks pid = some P → P.children = some cs →
      indexOfChild cs r = (i : Int) →
      (n.strict = true → badContainment n.type P.flavour = false) →
      mapGet blocks (ids 0) = none →
      (appendBlockMem ids blocks n).1.isOk = true
      ∧ (mapGet (appendBlockMem ids blocks n).2 pid).map (·.children)
          = some (some (insertChildAt (if dir then i + 1 else i)
              (.arr [ids 0]) cs))) := by
  refine ⟨?_, ?_, ?_, ?_⟩
  · intro hmr
    have hphase := resolveParentPhase_ref_notFound ids 0 blocks n pl dir r hpl href hmr
    unfold appendBlockMem resolveInsertContext
    rw [hphase]
    exact ⟨rfl, rfl⟩
  · intro rb hmr hpar
    have hphase :=
      resolveParentPhase_ref_noParent ids 0 blocks n pl dir r rb hpl href hmr hpar
    unfold appendBlockMem resolveInsertContext
    rw [hphase]
    exact ⟨rfl, rfl⟩
  · intro rb pid P cs hmr hpar hmp hcs hidx
    have hphase :=
      resolveParentPhase_ref_ok ids 0 blocks n pl dir r pid rb hpl href hmr hpar
    unfold appendBlockMem resolveInsertContext
    rw [hphase]
    simp only [findBlockById, hmp]
    cases hcc : containmentCheck n.strict n.type P.flavour with
    | error e =>
      simp only [hcc]
      rfl
    | ok u =>
      simp only [hcc, hcs, Option.getD_some]
      cases dir with
      | false =>
        simp only [Bool.false_eq_true, if_false]
        rw [show insertIndexFor n.strict (.before r) cs = .error (.refNotChild r) from by
          simp only [insertIndexFor]
          rw [if_pos hidx]]
        rfl
      | true =>
        simp only [if_true]
        rw [show insertIndexFor n.strict (.after r) cs = .error (.refNotChild r) from by
          simp only [insertIndexFor]
          rw [if_pos hidx]]
        rfl
  · intro rb pid P cs i hmr hpar hmp hcs hidx hbc hfresh
    have hpes : ids 0 ≠ pid := by
      intro hc
      rw [hc, hmp] at hfresh
      cases hfresh
    have hphase :=
      resolveParentPhase_ref_ok ids 0 blocks n pl dir r pid rb hpl href hmr hpar
    have hcok : containmentCheck n.strict n.type P.flavour = .ok () := by
      cases hs : n.strict with
      | false => rfl
      | true => exact containmentCheck_ok_of_not_bad true n.type P.flavour (hbc hs)
    have hres : resolveInsertContext ids 0 blocks n
        = (.ok { parentId := pid, parentBlock := { P with children := some cs },
                 children := cs, insertIndex := if dir then i + 1 else i },
           blocks, 0) := by
      unfold resolveInsertContext
      rw [hphase]
      simp only [findBlockById, hmp, hcok, hcs, Option.getD_some, Option.isSome_some,
                 if_true]
      cases dir with
      | false =>
        simp only [Bool.false_eq_true, if_false]
        rw [show insertIndexFor n.strict (.before r) cs = .ok i from by
          simp only [insertIndexFor]
          rw [if_neg (by omega), hidx]
          simp]
      | true =>
        simp only [if_true]
        rw [show insertIndexFor n.strict (.after r) cs = .ok (i + 1) from by
          simp only [insertIndexFor]
          rw [if_neg (by omega), hidx]
          simp]
    unfold appendBlockMem
    rw [hres]
    have hbid : (createBlock ids 0 pid n).blockId = ids 0 :=
      createBlock_blockId ids 0 pid n
    constructor
    · rfl
    · simp only [hbid]
      rw [if_neg hpes, mapGet_mapSet_self]
      simp only [Option.map_some']
      by_cases hge : cs.length ≤ (if dir then i + 1 else i)
      · rw [if_pos hge, insertChildAt_ge_length _ cs _ hge]
      · rw [if_neg hge]

/-- C2 counterexample: the claim as stated fails on the code.  In the
fixture document the reference block n1 exists, has parent p1 and sits at
sibling index 1 of the children of p1, so the claim requires a strict-mode
paragraph append with afterBlockId n1 to insert at index 2; the code
instead fails with a containment error (paragraph under a page) and leaves
the map unchanged. -/
theorem refPlacement_containment_counterexample :
    mapGet docEx "n1" = some noteEx
    ∧ truthy noteEx.parent = some "p1"
    ∧ indexOfChild [ChildEntry.arr ["s1"], ChildEntry.arr ["n1"]] "n1" = (1 : Int)
    ∧ (appendBlockMem idsEx docEx
        { baseN with placement := some { afterBlockId := some "n1" } }).1
      = .error (.cannotAppendUnderPage .paragraph)
    ∧ (appendBlockMem idsEx docEx
        { baseN with placement := some { afterBlockId := some "n1" } }).2 = docEx := by
  exact ⟨rfl, rfl, by decide, by decide, by rfl⟩

/-- C2 witness: appending a paragraph after the paragraph b1 (inside note
n1) succeeds and links the new block right after it. -/
theorem refPlacement_resolution_witness :
    mapGet docEx "b1" = some paraEx
    ∧ truthy paraEx.parent = some "n1"
    ∧ indexOfChild [ChildEntry.str "b1"] "b1" = (0 : Int)
    ∧ (appendBlockMem idsEx docEx
        { baseN with placement := some { afterBlockId := some "b1" } }).1.isOk = true
    ∧ (mapGet (appendBlockMem idsEx docEx
        { baseN with placement := some { afterBlockId := some "b1" } }).2 "n1").map
        (·.children)
      = some (some [ChildEntry.str "b1", ChildEntry.arr ["nb0"]]) := by
  have h := (refPlacement_resolution idsEx docEx
    { baseN with placement := some { afterBlockId := some "b1" } }
    { afterBlockId := some "b1" } true "b1" rfl rfl).2.2.2
    paraEx "n1" noteEx [ChildEntry.str "b1"] 0 rfl rfl rfl rfl (by decide)
    (fun _ => by decide) rfl
  refine ⟨rfl, rfl, by decide, h.1, ?_⟩
  rw [h.2]
  rfl

/-- Parent resolution for a request with no placement: the implicit chain. -/
theorem resolveParentPhase_implicit (ids : Nat → String) (k : Nat) (blocks : Blocks)
    (n : NormalizedInput) (hpl : n.placement = none) :
    resolveParentPhase ids k blocks n =
      (if n.type = .frame ∨ n.type = .edgeless_text then
        match ensureSurfaceBlockS ids k blocks with
        | (.error e, b, k') => (.error e, b, k')
        | (.ok sid, b, k') => (.ok (sid, .append), b, k')
      else if n.type = .note then
        match findBlockIdByFlavour blocks "affine:page" with
        | none => (.error .noPageForNote, blocks, k)
        | some pageId => (.ok (pageId, .append), blocks, k)
      else
        match ensureNoteBlockS ids k blocks with
        | (.error e, b, k') => (.error e, b, k')
        | (.ok nid, b, k') => (.ok (nid, .append), b, k')) := by
  unfold resolveParentPhase
  simp only [hpl, Option.none_bind]

/-- ensureSurfaceBlock when the surface already exists. -/
theorem ensureSurfaceBlockS_existing (ids : Nat → String) (k : Nat) (blocks : Blocks)
    (s : String) (hs : findBlockIdByFlavour blocks "affine:surface" = some s) :
    ensureSurfaceBlockS ids k blocks = (.ok s, blocks, k) := by
  unfold ensureSurfaceBlockS
  rw [hs]

/-- ensureSurfaceBlock creating the surface under the found page. -/
theorem ensureSurfaceBlockS_created (ids : Nat → String) (k : Nat) (blocks : Blocks)
    (p : String) (PB : Block)
    (hns : findBlockIdByFlavour blocks "affine:surface" = none)
    (hp : findBlockIdByFlavour blocks "affine:page" = some p)
    (hPB : mapGet blocks p = some PB)
    (hfresh : mapGet blocks (ids k) = none) :
    ensureSurfaceBlockS ids k blocks =
      (.ok (ids k),
       mapSet (mapSet blocks (ids k) (defaultSurfaceBlock (ids k) p)) p
         { PB with children := some ((PB.children.getD []) ++ [.arr [ids k]]) },
       k + 1) := by
  have hpne : ids k ≠ p := by
    intro hc
    rw [← hc, hfresh] at hPB
    cases hPB
  unfold ensureSurfaceBlockS
  rw [hns, hp]
  simp only [mapGet_mapSet_other _ _ _ _ hpne, hPB]

/-- ensureNoteBlock when the note already exists. -/
theorem ensureNoteBlockS_existing (ids : Nat → String) (k : Nat) (blocks : Blocks)
    (s : String) (hs : findBlockIdByFlavour blocks "affine:note" = some s) :
    ensureNoteBlockS ids k blocks = (.ok s, blocks, k) := by
  unfold ensureNoteBlockS
  rw [hs]

/-- ensureNoteBlock creating the default note under the found page. -/
theorem ensureNoteBlockS_created (ids : Nat → String) (k : Nat) (blocks : Blocks)
    (p : String) (PB : Block)
    (hnn : findBlockIdByFlavour blocks "affine:note" = none)
    (hp : findBlockIdByFlavour blocks "affine:page" = some p)
    (hPB : mapGet blocks p = some PB)
    (hfresh : mapGet blocks (ids k) = none) :
    ensureNoteBlockS ids k blocks =
      (.ok (ids k),
       mapSet (mapSet blocks (ids k) (defaultNoteBlock (ids k) p)) p
         { PB with children := some ((PB.children.getD []) ++ [.arr [ids k]]) },
       k + 1) := by
  have hpne : ids k ≠ p := by
    intro hc
    rw [← hc, hfresh] at hPB
    cases hPB
  unfold ensureNoteBlockS
  rw [hnn, hp]
  simp only [mapGet_mapSet_other _ _ _ _ hpne, hPB]

/-- A content kind (neither frame/edgeless_text nor note) always passes the
containment check under a note parent. -/
theorem badContainment_note_of_content (t : BlockType)
    (h1 : ¬(t = BlockType.frame ∨ t = BlockType.edgeless_text))
    (h2 : t ≠ BlockType.note) :
    badContainment t "affine:note" = false := by
  cases t <;>
    first
      | exact absurd rfl h2
      | exact absurd (Or.inl rfl) h1
      | exact absurd (Or.inr rfl) h1
      | decide

set_option maxHeartbeats 1600000 in
/-- C4: for an append_block request with no placement the implicit parent is
chosen by kind.  frame/edgeless_text attach under the existing surface block,
or under a surface freshly created as a child of the page (failing with
noPageForSurface when neither surface nor page exists); note attaches under
the page block (failing with noPageForNote when no page exists); every other
kind attaches under the existing note block, or under a default note (with
its default geometry and background props) freshly created as a child of the
page (failing with noPageForContent when neither note nor page exists).  In
every success case the new block is linked at the end of the chosen parent's
children.  Freshness of the two generated ids and kind/flavour agreement of
the located blocks are hypotheses. -/
theorem implicitPlacement_byKind (ids : Nat → String) (blocks : Blocks)
    (n : NormalizedInput)
    (hpl : n.placement = none)
    (hfresh0 : mapGet blocks (ids 0) = none)
    (hfresh1 : mapGet blocks (ids 1) = none)
    (hne01 : ids 0 ≠ ids 1) :
    ((n.type = BlockType.frame ∨ n.type = BlockType.edgeless_text) →
      (∀ s SB cs, findBlockIdByFlavour blocks "affine:surface" = some s →
        mapGet blocks s = some SB → SB.flavour = "affine:surface" →
        SB.children = some cs →
        (appendBlockMem ids blocks n).1.isOk = true
        ∧ (mapGet (appendBlockMem ids blocks n).2 s).map (·.children)
            = some (some (cs ++ [ChildEntry.arr [ids 0]])))
      ∧ (∀ p PB pcs, findBlockIdByFlavour blocks "affine:surface" = none →
          findBlockIdByFlavour blocks "affine:page" = some p →
          mapGet blocks p = some PB → PB.children = some pcs →
          (appendBlockMem ids blocks n).1.isOk = true
          ∧ mapGet (appendBlockMem ids blocks n).2 (ids 0)
              = some { defaultSurfaceBlock (ids 0) p with
                        children := some [ChildEntry.arr [ids 1]] }
          ∧ (mapGet (appendBlockMem ids blocks n).2 p).map (·.children)
              = some (some (pcs ++ [ChildEntry.arr [ids 0]]))
          ∧ mapGet (appendBlockMem ids blocks n).2 (ids 1)
              = some (createBlock ids 1 (ids 0) n).block)
      ∧ (findBlockIdByFlavour blocks "affine:surface" = none →
          findBlockIdByFlavour blocks "affine:page" = none →
          (appendBlockMem ids blocks n).1 = .error .noPageForSurface
          ∧ (appendBlockMem ids blocks n).2 = blocks))
  ∧ (n.type = BlockType.note →
      (∀ p PB pcs, findBlockIdByFlavour blocks "affine:page" = some p →
        mapGet blocks p = some PB → PB.flavour = "affine:page" →
        PB.children = some pcs →
        (appendBlockMem ids blocks n).1.isOk = true
        ∧ (mapGet (appendBlockMem ids blocks n).2 p).map (·.children)
            = some (some (pcs ++ [ChildEntry.arr [ids 0]])))
      ∧ (findBlockIdByFlavour blocks "affine:page" = none →
          (appendBlockMem ids blocks n).1 = .error .noPageForNote
          ∧ (appendBlockMem ids blocks n).2 = blocks))
  ∧ (¬(n.type = BlockType.frame ∨ n.type = BlockType.edgeless_text) →
      n.type ≠ BlockType.note →
      (∀ nid NB ncs, findBlockIdByFlavour blocks "affine:note" = some nid →
        mapGet blocks nid = some NB → NB.flavour = "affine:note" →
        NB.children = some ncs →
        (appendBlockMem ids blocks n).1.isOk = true
        ∧ (mapGet (appendBlockMem ids blocks n).2 nid).map (·.children)
            = some (some (ncs ++ [ChildEntry.arr [ids 0]])))
      ∧ (∀ p PB pcs, findBlockIdByFlavour blocks "affine:note" = none →
          findBlockIdByFlavour blocks "affine:page" = some p →
          mapGet blocks p = some PB → PB.children = some pcs →
          (appendBlockMem ids blocks n).1.isOk = true
          ∧ mapGet (appendBlockMem ids blocks n).2 (ids 0)
              = some { defaultNoteBlock (ids 0) p with
                        children := some [ChildEntry.arr [ids 1]] }
          ∧ (mapGet (appendBlockMem ids blocks n).2 p).map (·.children)
              = some (some (pcs ++ [ChildEntry.arr [ids 0]]))
          ∧ mapGet (appendBlockMem ids blocks n).2 (ids 1)
              = some (createBlock ids 1 (ids 0) n).block)
      ∧ (findBlockIdByFlavour blocks "affine:note" = none →
          findBlockIdByFlavour blocks "affine:page" = none →
          (appendBlockMem ids blocks n).1 = .error .noPageForContent
          ∧ (appendBlockMem ids blocks n).2 = blocks)) := by
  have hbase := resolveParentPhase_implicit ids 0 blocks n hpl
  refine ⟨?_, ?_, ?_⟩
  · -- frame / edgeless_text: surface parent
    intro hty
    have hifpos : resolveParentPhase ids 0 blocks n =
        (match ensureSurfaceBlockS ids 0 blocks with
         | (.error e, b, k') => (.error e, b, k')
         | (.ok sid, b, k') => (.ok (sid, .append), b, k')) := by
      rw [hbase, if_pos hty]
    refine ⟨?_, ?_, ?_⟩
    · -- surface exists
      intro s SB cs hfs hSB hflav hcs
      have hsne : ids 0 ≠ s := by
        intro hc
        rw [← hc, hfresh0] at hSB
        cases hSB
      have hphase : resolveParentPhase ids 0 blocks n = (.ok (s, .append), blocks, 0) := by
        rw [hifpos, ensureSurfaceBlockS_existing ids 0 blocks s hfs]
      have hbadc : badContainment n.type SB.flavour = false := by
        rw [hflav]
        rcases hty with h | h <;> rw [h] <;> decide
      have hcok : containmentCheck n.strict n.type SB.flavour = Except.ok () :=
        containmentCheck_ok_of_not_bad n.strict n.type SB.flavour hbadc
      have hres : resolveInsertContext ids 0 blocks n
          = (.ok { parentId := s, parentBlock := { SB with children := some cs },
                   children := cs, insertIndex := cs.length }, blocks, 0) := by
        unfold resolveInsertContext
        rw [hphase]
        simp only [findBlockById, hSB, hcok, hcs, Option.getD_some, Option.isSome_some,
                   if_true]
        rfl
      have hbid : (createBlock ids 0 s n).blockId = ids 0 := createBlock_blockId ids 0 s n
      unfold appendBlockMem
      rw [hres]
      refine ⟨rfl, ?_⟩
      simp only [hbid]
      rw [if_neg hsne, mapGet_mapSet_self]
      simp only [Option.map_some']
      rw [if_pos (show cs.length ≥ cs.length from Nat.le_refl _)]
    · -- surface created under the page
      intro p PB pcs hns hp hPB hpcs
      have hpne0 : p ≠ ids 0 := by
        intro hc
        rw [hc, hfresh0] at hPB
        cases hPB
      have hpne1 : p ≠ ids 1 := by
        intro hc
        rw [hc, hfresh1] at hPB
        cases hPB
      have hphase : resolveParentPhase ids 0 blocks n =
          (.ok (ids 0, .append),
           mapSet (mapSet blocks (ids 0) (defaultSurfaceBlock (ids 0) p)) p
             { PB with children := some (pcs ++ [ChildEntry.arr [ids 0]]) },
           1) := by
        rw [hifpos, ensureSurfaceBlockS_created ids 0 blocks p PB hns hp hPB hfresh0]
        simp only [hpcs, Option.getD_some]
      have hlook0 : findBlockById
          (mapSet (mapSet blocks (ids 0) (defaultSurfaceBlock (ids 0) p)) p
            { PB with children := some (pcs ++ [ChildEntry.arr [ids 0]]) }) (ids 0)
          = some (defaultSurfaceBlock (ids 0) p) := by
        unfold findBlockById
        rw [mapGet_mapSet_other _ _ _ _ hpne0, mapGet_mapSet_self]
      have hbadc : badContainment n.type (defaultSurfaceBlock (ids 0) p).flavour = false := by
        rcases hty with h | h
        · rw [h]
          exact (by decide : badContainment BlockType.frame "affine:surface" = false)
        · rw [h]
          exact (by decide : badContainment BlockType.edgeless_text "affine:surface" = false)
      have hcok : containmentCheck n.strict n.type (defaultSurfaceBlock (ids 0) p).flavour
          = Except.ok () :=
        containmentCheck_ok_of_not_bad n.strict n.type _ hbadc
      have hres : resolveInsertContext ids 0 blocks n
          = (.ok { parentId := ids 0,
                   parentBlock := { defaultSurfaceBlock (ids 0) p with children := some [] },
                   children := [], insertIndex := 0 },
             mapSet (mapSet blocks (ids 0) (defaultSurfaceBlock (ids 0) p)) p
               { PB with children := some (pcs ++ [ChildEntry.arr [ids 0]]) },
             1) := by
        unfold resolveInsertContext
        rw [hphase]
        simp only [hlook0, hcok]
        rfl
      have hbid : (createBlock ids 1 (ids 0) n).blockId = ids 1 :=
        createBlock_blockId ids 1 (ids 0) n
      have hne10 : ¬ (ids 1 = ids 0) := fun hc => hne01 hc.symm
      unfold appendBlockMem
      rw [hres]
      refine ⟨rfl, ?_, ?_, ?_⟩
      · simp only [hbid]
        rw [if_neg hne10, mapGet_mapSet_self]
        rfl
      · simp only [hbid]
        rw [if_neg hne10,
            mapGet_mapSet_other _ _ _ _ (fun hc => hpne0 hc.symm),
            mapGet_mapSet_other _ _ _ _ (fun hc => hpne1 hc.symm),
            mapGet_mapSet_self]
        rfl
      · simp only [hbid]
        rw [if_neg hne10, mapGet_mapSet_other _ _ _ _ hne01, mapGet_mapSet_self]
    · -- neither surface nor page
      intro hns hnp
      have hphase : resolveParentPhase ids 0 blocks n
          = (.error .noPageForSurface, blocks, 0) := by
        rw [hifpos]
        unfold ensureSurfaceBlockS
        rw [hns, hnp]
      unfold appendBlockMem resolveInsertContext
      rw [hphase]
      exact ⟨rfl, rfl⟩
  · -- note: page parent
    intro hty
    have hnotfe : ¬(n.type = BlockType.frame ∨ n.type = BlockType.edgeless_text) := by
      rw [hty]
      decide
    have hifnote : resolveParentPhase ids 0 blocks n =
        (match findBlockIdByFlavour blocks "affine:page" with
         | none => (.error .noPageForNote, blocks, 0)
         | some pageId => (.ok (pageId, .append), blocks, 0)) := by
      rw [hbase, if_neg hnotfe, if_pos hty]
    refine ⟨?_, ?_⟩
    · intro p PB pcs hp hPB hflav hpcs
      have hpne : ids 0 ≠ p := by
        intro hc
        rw [← hc, hfresh0] at hPB
        cases hPB
      have hphase : resolveParentPhase ids 0 blocks n = (.ok (p, .append), blocks, 0) := by
        rw [hifnote, hp]
      have hbadc : badContainment n.type PB.flavour = false := by
        rw [hty, hflav]
        decide
      have hcok : containmentCheck n.strict n.type PB.flavour = Except.ok () :=
        containmentCheck_ok_of_not_bad n.strict n.type PB.flavour hbadc
      have hres : resolveInsertContext ids 0 blocks n
          = (.ok { parentId := p, parentBlock := { PB with children := some pcs },
                   children := pcs, insertIndex := pcs.length }, blocks, 0) := by
        unfold resolveInsertContext
        rw [hphase]
        simp only [findBlockById, hPB, hcok, hpcs, Option.getD_some, Option.isSome_some,
                   if_true]
        rfl
      have hbid : (createBlock ids 0 p n).blockId = ids 0 := createBlock_blockId ids 0 p n
      unfold appendBlockMem
      rw [hres]
      refine ⟨rfl, ?_⟩
      simp only [hbid]
      rw [if_neg hpne, mapGet_mapSet_self]
      simp only [Option.map_some']
      rw [if_pos (show pcs.length ≥ pcs.length from Nat.le_refl _)]
    · intro hnp
      have hphase : resolveParentPhase ids 0 blocks n
          = (.error .noPageForNote, blocks, 0) := by
        rw [hifnote, hnp]
      unfold appendBlockMem resolveInsertContext
      rw [hphase]
      exact ⟨rfl, rfl⟩
  · -- every other kind: note parent
    intro hty1 hty2
    have hifcontent : resolveParentPhase ids 0 blocks n =
        (match ensureNoteBlockS ids 0 blocks with
         | (.error e, b, k') => (.error e, b, k')
         | (.ok nid, b, k') => (.ok (nid, .append), b, k')) := by
      rw [hbase, if_neg hty1, if_neg hty2]
    refine ⟨?_, ?_, ?_⟩
    · -- note exists
      intro nid NB ncs hfn hNB hflav hncs
      have hsne : ids 0 ≠ nid := by
        intro hc
        rw [← hc, hfresh0] at hNB
        cases hNB
      have hphase : resolveParentPhase ids 0 blocks n
          = (.ok (nid, .append), blocks, 0) := by
        rw [hifcontent, ensureNoteBlockS_existing ids 0 blocks nid hfn]
      have hbadc : badContainment n.type NB.flavour = false := by
        rw [hflav]
        exact badContainment_note_of_content n.type hty1 hty2
      have hcok : containmentCheck n.strict n.type NB.flavour = Except.ok () :=
        containmentCheck_ok_of_not_bad n.strict n.type NB.flavour hbadc
      have hres : resolveInsertContext ids 0 blocks n
          = (.ok { parentId := nid, parentBlock := { NB with children := some ncs },
                   children := ncs, insertIndex := ncs.length }, blocks, 0) := by
        unfold resolveInsertContext
        rw [hphase]
        simp only [findBlockById, hNB, hcok, hncs, Option.getD_some, Option.isSome_some,
                   if_true]
        rfl
      have hbid : (createBlock ids 0 nid n).blockId = ids 0 :=
        createBlock_blockId ids 0 nid n
      unfold appendBlockMem
      rw [hres]
      refine ⟨rfl, ?_⟩
      simp only [hbid]
      rw [if_neg hsne, mapGet_mapSet_self]
      simp only [Option.map_some']
      rw [if_pos (show ncs.length ≥ ncs.length from Nat.le_refl _)]
    · -- note created under the page
      intro p PB pcs hnn hp hPB hpcs
      have hpne0 : p ≠ ids 0 := by
        intro hc
        rw [hc, hfresh0] at hPB
        cases hPB
      have hpne1 : p ≠ ids 1 := by
        intro hc
        rw [hc, hfresh1] at hPB
        cases hPB
      have hphase : resolveParentPhase ids 0 blocks n =
          (.ok (ids 0, .append),
           mapSet (mapSet blocks (ids 0) (defaultNoteBlock (ids 0) p)) p
             { PB with children := some (pcs ++ [ChildEntry.arr [ids 0]]) },
           1) := by
        rw [hifcontent, ensureNoteBlockS_created ids 0 blocks p PB hnn hp hPB hfresh0]
        simp only [hpcs, Option.getD_some]
      have hlook0 : findBlockById
          (mapSet (mapSet blocks (ids 0) (defaultNoteBlock (ids 0) p)) p
            { PB with children := some (pcs ++ [ChildEntry.arr [ids 0]]) }) (ids 0)
          = some (defaultNoteBlock (ids 0) p) := by
        unfold findBlockById
        rw [mapGet_mapSet_other _ _ _ _ hpne0, mapGet_mapSet_self]
      have hbadc : badContainment n.type (defaultNoteBlock (ids 0) p).flavour = false :=
        badContainment_note_of_content n.type hty1 hty2
      have hcok : containmentCheck n.strict n.type (defaultNoteBlock (ids 0) p).flavour
          = Except.ok () :=
        containmentCheck_ok_of_not_bad n.strict n.type _ hbadc
      have hres : resolveInsertContext ids 0 blocks n
          = (.ok { parentId := ids 0,
                   parentBlock := { defaultNoteBlock (ids 0) p with children := some [] },
                   children := [], insertIndex := 0 },
             mapSet (mapSet blocks (ids 0) (defaultNoteBlock (ids 0) p)) p
               { PB with children := some (pcs ++ [ChildEntry.arr [ids 0]]) },
             1) := by
        unfold resolveInsertContext
        rw [hphase]
        simp only [hlook0, hcok]
        rfl
      have hbid : (createBlock ids 1 (ids 0) n).blockId = ids 1 :=
        createBlock_blockId ids 1 (ids 0) n
      have hne10 : ¬ (ids 1 = ids 0) := fun hc => hne01 hc.symm
      unfold appendBlockMem
      rw [hres]
      refine ⟨rfl, ?_, ?_, ?_⟩
      · simp only [hbid]
        rw [if_neg hne10, mapGet_mapSet_self]
        rfl
      · simp only [hbid]
        rw [if_neg hne10,
            mapGet_mapSet_other _ _ _ _ (fun hc => hpne0 hc.symm),
            mapGet_mapSet_other _ _ _ _ (fun hc => hpne1 hc.symm),
            mapGet_mapSet_self]
        rfl
      · simp only [hbid]
        rw [if_neg hne10, mapGet_mapSet_other _ _ _ _ hne01, mapGet_mapSet_self]
    · -- neither note nor page
      intro hnn hnp
      have hphase : resolveParentPhase ids 0 blocks n
          = (.error .noPageForContent, blocks, 0) := by
        rw [hifcontent]
        unfold ensureNoteBlockS
        rw [hnn, hnp]
      unfold appendBlockMem resolveInsertContext
      rw [hphase]
      exact ⟨rfl, rfl⟩

/-- C4 witness: appending a paragraph with no placement into a page-only
document creates the default note under the page and links the new
paragraph as its sole child. -/
theorem implicitPlacement_byKind_witness :
    (appendBlockMem idsEx docPageOnly baseN).1.isOk = true
    ∧ mapGet (appendBlockMem idsEx docPageOnly baseN).2 (idsEx 0)
        = some { defaultNoteBlock (idsEx 0) "p1" with
                  children := some [ChildEntry.arr [idsEx 1]] }
    ∧ (mapGet (appendBlockMem idsEx docPageOnly baseN).2 "p1").map (·.children)
        = some (some [ChildEntry.arr [idsEx 0]])
    ∧ mapGet (appendBlockMem idsEx docPageOnly baseN).2 (idsEx 1)
        = some (createBlock idsEx 1 (idsEx 0) baseN).block := by
  have h := ((implicitPlacement_byKind idsEx docPageOnly baseN rfl rfl rfl
      (by decide)).2.2 (by decide) (by decide)).2.1 "p1"
      { pageEx with children := some [] } [] rfl rfl rfl rfl
  exact ⟨h.1, h.2.1, h.2.2.1, h.2.2.2⟩

end AffineMcp

